import Mathlib

/-!
# Verification of the type-representation core (`lib/AST/Type.cpp`)

A shallow embedding of the qualifier model, the canonical type-node graph,
the structural-predicate engine, the linkage propagator, the desugaring
engine and the Objective-C type-argument substitution engine of the
compiler's `Type.cpp`, together with proofs of the specified laws.

Conventions of the embedding:
* Machine pointers and interning are replaced by structural values; the
  interning collaborator guarantees "structurally equal implies same
  reference", so reference identity is modelled by equality of values.
* Declaration storage (record/enum declarations) is an external
  collaborator; its per-declaration flags and layout answers are carried
  as fields of the embedded declaration values.
* All functions are total and executable.
-/

namespace TypeCpp

/-! ## Qualifier model (`Qualifiers`)

A qualifier set packs the cv mask (3 bits), the Objective-C GC attribute,
the Objective-C lifetime and the address space.  The bitfields of the C++
`Qualifiers::Mask` word are split into the four components; equality of
the structure corresponds to equality of the packed mask. -/

/-- Objective-C garbage-collection attribute (`Qualifiers::GC`). -/
inductive ObjCGC where
  | GCNone
  | Weak
  | Strong
deriving DecidableEq, Repr

/-- Objective-C ownership lifetime (`Qualifiers::ObjCLifetime`). -/
inductive ObjCLifetime where
  | OCL_None
  | OCL_ExplicitNone
  | OCL_Strong
  | OCL_Weak
  | OCL_Autoreleasing
deriving DecidableEq, Repr

/-- A qualifier set: cv mask (the low three bits of `Mask`), GC attribute,
lifetime and address space (`0` encodes "no address space"). -/
structure Qualifiers where
  cvr : Fin 8
  gc : ObjCGC
  lifetime : ObjCLifetime
  addrSpace : Nat
deriving DecidableEq, Repr

/-- The empty qualifier set. -/
def Qualifiers.empty : Qualifiers :=
  ⟨0, .GCNone, .OCL_None, 0⟩

/-- `Qualifiers::hasObjCGCAttr`. -/
def Qualifiers.hasObjCGCAttr (q : Qualifiers) : Bool :=
  q.gc != .GCNone

/-- `Qualifiers::hasAddressSpace`. -/
def Qualifiers.hasAddressSpace (q : Qualifiers) : Bool :=
  q.addrSpace != 0

/-- `Qualifiers::hasObjCLifetime`. -/
def Qualifiers.hasObjCLifetime (q : Qualifiers) : Bool :=
  q.lifetime != .OCL_None

/-- `QualType::hasNonTrivialObjCLifetime`: the lifetime is `__strong` or
`__weak`. -/
def Qualifiers.hasNonTrivialObjCLifetime (q : Qualifiers) : Bool :=
  q.lifetime == .OCL_Strong || q.lifetime == .OCL_Weak

/-- `Qualifiers::isStrictSupersetOf` (Type.cpp:32-45): the two sets differ,
the cv bits of `other` are a subset of ours, and on each of the GC,
address-space and lifetime axes the values agree or ours is set while the
other's is unset.  The cv comparison mirrors the source's
`((Mask & CVRMask) | (Other.Mask & CVRMask)) == (Mask & CVRMask)`; `cvr`
already holds exactly the bits selected by `CVRMask`. -/
def Qualifiers.isStrictSupersetOf (q other : Qualifiers) : Bool :=
  (q != other) &&
    ((q.cvr.val ||| other.cvr.val) == q.cvr.val) &&
    ((q.gc == other.gc) || (q.hasObjCGCAttr && !other.hasObjCGCAttr)) &&
    ((q.addrSpace == other.addrSpace) ||
      (q.hasAddressSpace && !other.hasAddressSpace)) &&
    ((q.lifetime == other.lifetime) ||
      (q.hasObjCLifetime && !other.hasObjCLifetime))

theorem lor_eq_left_of_both {a b : Nat} (h1 : a ||| b = a) (h2 : b ||| a = b) :
    a = b := by
  rw [Nat.lor_comm] at h2
  exact h1.symm.trans h2

/-- C7: the qualifier strict-superset relation is irreflexive, implies
disequality, and is asymmetric: `isStrictSupersetOf(A,A)` is false,
`isStrictSupersetOf(A,B)` implies `A ≠ B`, and `isStrictSupersetOf(A,B)`
and `isStrictSupersetOf(B,A)` never both hold. -/
theorem qualifiers_strict_superset_strict_partial :
    (∀ A : Qualifiers, A.isStrictSupersetOf A = false) ∧
    (∀ A B : Qualifiers, A.isStrictSupersetOf B = true → A ≠ B) ∧
    (∀ A B : Qualifiers,
      ¬(A.isStrictSupersetOf B = true ∧ B.isStrictSupersetOf A = true)) := by
  refine ⟨?_, ?_, ?_⟩
  · intro A
    simp [Qualifiers.isStrictSupersetOf]
  · intro A B h
    simp only [Qualifiers.isStrictSupersetOf, Bool.and_eq_true, bne_iff_ne,
      ne_eq] at h
    exact h.1.1.1.1
  · rintro A B ⟨hAB, hBA⟩
    simp only [Qualifiers.isStrictSupersetOf, Bool.and_eq_true, bne_iff_ne,
      ne_eq, beq_iff_eq, Bool.or_eq_true,
      Bool.and_eq_true, Bool.not_eq_true'] at hAB hBA
    obtain ⟨⟨⟨⟨hne, hcvr1⟩, hgc1⟩, has1⟩, hlt1⟩ := hAB
    obtain ⟨⟨⟨⟨_, hcvr2⟩, hgc2⟩, has2⟩, hlt2⟩ := hBA
    apply hne
    have hcvr : A.cvr = B.cvr := by
      have := lor_eq_left_of_both hcvr1 hcvr2
      exact Fin.ext this
    have hgc : A.gc = B.gc := by
      rcases hgc1 with h | ⟨hA, hB⟩
      · exact h
      · rcases hgc2 with h | ⟨hB', hA'⟩
        · exact h.symm
        · simp [Qualifiers.hasObjCGCAttr] at hA hB hB'
          exact absurd hB hB'
    have has : A.addrSpace = B.addrSpace := by
      rcases has1 with h | ⟨hA, hB⟩
      · exact h
      · rcases has2 with h | ⟨hB', hA'⟩
        · exact h.symm
        · simp [Qualifiers.hasAddressSpace] at hA hB hB'
          exact absurd hB hB'
    have hlt : A.lifetime = B.lifetime := by
      rcases hlt1 with h | ⟨hA, hB⟩
      · exact h
      · rcases hlt2 with h | ⟨hB', hA'⟩
        · exact h.symm
        · simp [Qualifiers.hasObjCLifetime] at hA hB hB'
          exact absurd hB hB'
    cases A
    cases B
    simp_all

/-- Witness for C7 at concrete inputs: `{const, volatile}` (cv mask `0b011`)
is a strict superset of `{const}` (cv mask `0b001`), hence the two are
distinct, matching the spec's scenario. -/
theorem qualifiers_strict_superset_strict_partial_witness :
    (⟨3, .GCNone, .OCL_None, 0⟩ : Qualifiers) ≠ ⟨1, .GCNone, .OCL_None, 0⟩ :=
  qualifiers_strict_superset_strict_partial.2.1
    ⟨3, .GCNone, .OCL_None, 0⟩ ⟨1, .GCNone, .OCL_None, 0⟩ (by decide)

/-! ## Canonical type node graph

The predicate and linkage engines of `Type.cpp` operate on the *canonical*
shape of a type (they read `CanonicalType` or use `getAs<...>`, which
desugars).  `CTy` therefore embeds the canonical type-node variants that
those algorithms distinguish; a qualified type `CQual` pairs a node with
a qualifier set.  Following the interning collaborator's canonicalization
of arrays, qualifiers of array element types are hoisted onto the
outermost qualified-type handle, so canonical array nodes store a bare
element node.

The external declaration-storage collaborator is embedded as the
`RecordDecl`/`EnumDecl` values: the per-declaration flags
(`isTriviallyCopyable`, `isStandardLayout`, ...) and the layout answers
(`getTypeSizeInChars`, `getFieldOffset`) that `Type.cpp` obtains through
narrow contracts are stored as fields. -/

/-- Builtin type kinds (a representative cut of `BuiltinType::Kind`):
`voidTy` is the only incomplete builtin; `boolTy`/`charTy`/`intTy` lie in
the integer range `[Bool, Int128]`; `floatTy`/`doubleTy` lie in the
floating range `[Half, Float128]`; `nullPtrTy` is `NullPtr`, the last
scalar kind. -/
inductive BuiltinKind where
  | voidTy
  | boolTy
  | charTy
  | intTy
  | floatTy
  | doubleTy
  | nullPtrTy
deriving DecidableEq, Repr

/-- `BuiltinType` kind lies in the integer range `[Bool, Int128]`. -/
def BuiltinKind.isInteger : BuiltinKind → Bool
  | .boolTy | .charTy | .intTy => true
  | _ => false

/-- The linkage lattice.  Modelled from the spec: a small totally ordered
lattice `none < internal < unique-external < external`
(`clang::Linkage`, consumed from `Basic/Linkage.h`). -/
inductive Linkage where
  | NoLinkage
  | InternalLinkage
  | UniqueExternalLinkage
  | ExternalLinkage
deriving DecidableEq, Repr

/-- Rank of a linkage value in the lattice order. -/
def Linkage.toNat : Linkage → Nat
  | .NoLinkage => 0
  | .InternalLinkage => 1
  | .UniqueExternalLinkage => 2
  | .ExternalLinkage => 3

/-- Lattice order on linkage values. -/
def Linkage.le (a b : Linkage) : Prop :=
  a.toNat ≤ b.toNat

instance (a b : Linkage) : Decidable (a.le b) :=
  inferInstanceAs (Decidable (a.toNat ≤ b.toNat))

/-- Modelled from the spec: `minLinkage` (consumed from `Basic/Linkage.h`)
returns the smaller of two linkage values in the lattice order. -/
def minLinkage (a b : Linkage) : Linkage :=
  if a.toNat < b.toNat then a else b

/-- Per-record flags supplied by the declaration-storage collaborator
(`RecordDecl`/`CXXRecordDecl` queries used by `Type.cpp`). -/
structure RecFlags where
  isCXX : Bool
  isUnion : Bool
  isLambda : Bool
  completeDefinition : Bool
  hasDefinition : Bool
  hasDefaultConstructor : Bool
  hasNonTrivialDefaultConstructor : Bool
  isTriviallyCopyable : Bool
  isTrivial : Bool
  isStandardLayout : Bool
  isPOD : Bool
  isLiteral : Bool
  hasTrivialDestructor : Bool
deriving DecidableEq, Repr

/-- Per-enum data supplied by the declaration-storage collaborator. -/
structure EnumDecl where
  completeDefinition : Bool
  fixed : Bool
  scopedEnum : Bool
  link : Linkage
  localOrUnnamed : Bool
deriving DecidableEq, Repr

/-- `EnumDecl::isComplete` (declaration collaborator): complete definition
or fixed underlying type. -/
def EnumDecl.isComplete (d : EnumDecl) : Bool :=
  d.completeDefinition || d.fixed

mutual

/-- Canonical type nodes (`Type` subclasses of the canonical shape).
`autoTy` is an undeduced placeholder (`AutoType` with no deduced type,
which is its own canonical type); `templateTypeParm` and `depSizedArray`
are the dependent shapes the predicate engine distinguishes;
`typeVariable` is the bounds-checked dialect's `TypeVariableType`. -/
inductive CTy where
  | builtin (k : BuiltinKind)
  | pointer (pointee : CQual)
  | blockPointer (pointee : CQual)
  | lvalueReference (pointee : CQual)
  | rvalueReference (pointee : CQual)
  | memberPointer (cls : CTy) (pointee : CQual)
  | constantArray (size : Nat) (elem : CTy)
  | incompleteArray (elem : CTy)
  | variableArray (elem : CTy)
  | depSizedArray (elem : CTy)
  | vector (elem : CTy) (numElems : Nat)
  | complexTy (elem : CTy)
  | atomic (val : CQual)
  | functionProto (ret : CQual) (params : List CQual)
  | functionNoProto (ret : CQual)
  | record (d : RecordDecl)
  | enum (d : EnumDecl)
  | autoTy (dep : Bool)
  | templateTypeParm (index : Nat)
  | typeVariable

/-- A qualified type handle: (qualifier set, canonical node). -/
inductive CQual where
  | mk (quals : Qualifiers) (ty : CTy)

/-- A record declaration with the flags, members, bases, layout answers
and linkage data the engines read through the declaration-storage
contract. -/
inductive RecordDecl where
  | mk (flags : RecFlags) (fields : List FieldDecl) (bases : List CXXBase)
      (sizeChars : Nat) (link : Linkage) (localOrUnnamed : Bool)

/-- A field declaration: its type, its bit offset within the record
(`ASTContext::getFieldOffset`) and its size in characters
(`ASTContext::getTypeSizeInChars` of the field type). -/
inductive FieldDecl where
  | mk (ty : CQual) (offsetBits : Nat) (sizeChars : Nat)

/-- A C++ base-class specifier: virtual flag and the base's record
declaration (the base type is always a record type). -/
inductive CXXBase where
  | mk (isVirtual : Bool) (decl : RecordDecl)

end

/-- Qualifier component of a qualified type. -/
def CQual.quals : CQual → Qualifiers
  | .mk q _ => q

/-- Node component of a qualified type. -/
def CQual.ty : CQual → CTy
  | .mk _ t => t

/-- Flags of a record declaration. -/
def RecordDecl.flags : RecordDecl → RecFlags
  | .mk f _ _ _ _ _ => f

/-- Fields of a record declaration. -/
def RecordDecl.fields : RecordDecl → List FieldDecl
  | .mk _ fs _ _ _ _ => fs

/-- Base-class specifiers of a record declaration. -/
def RecordDecl.bases : RecordDecl → List CXXBase
  | .mk _ _ bs _ _ _ => bs

/-- Size in characters of the record type
(`ASTContext::getTypeSizeInChars`). -/
def RecordDecl.sizeChars : RecordDecl → Nat
  | .mk _ _ _ s _ _ => s

/-- Linkage of the record declaration (`TagDecl::getLinkageInternal`). -/
def RecordDecl.link : RecordDecl → Linkage
  | .mk _ _ _ _ l _ => l

/-- Whether the record is declared in a function/method context or has no
name for linkage purposes. -/
def RecordDecl.localOrUnnamed : RecordDecl → Bool
  | .mk _ _ _ _ _ b => b

/-- Type of a field declaration. -/
def FieldDecl.ty : FieldDecl → CQual
  | .mk t _ _ => t

/-- Bit offset of a field within its record. -/
def FieldDecl.offsetBits : FieldDecl → Nat
  | .mk _ o _ => o

/-- Size in characters of the field's type. -/
def FieldDecl.sizeChars : FieldDecl → Nat
  | .mk _ _ s => s

/-- Virtual flag of a base specifier. -/
def CXXBase.isVirtual : CXXBase → Bool
  | .mk v _ => v

/-- Record declaration of the base class. -/
def CXXBase.decl : CXXBase → RecordDecl
  | .mk _ d => d

/-! ### Simple shape classifications

These mirror the `is...Type` helpers of `Type.h`/`Type.cpp`; all of them
inspect the canonical shape, which in this embedding is the node
itself. -/

/-- `Type::isArrayType`: the canonical node is one of the four array
variants. -/
def CTy.isArrayType : CTy → Bool
  | .constantArray _ _ | .incompleteArray _ | .variableArray _
  | .depSizedArray _ => true
  | _ => false

/-- `Type::isIncompleteArrayType`. -/
def CTy.isIncompleteArrayType : CTy → Bool
  | .incompleteArray _ => true
  | _ => false

/-- `Type::isVariableArrayType`. -/
def CTy.isVariableArrayType : CTy → Bool
  | .variableArray _ => true
  | _ => false

/-- `Type::isDependentSizedArrayType`. -/
def CTy.isDependentSizedArrayType : CTy → Bool
  | .depSizedArray _ => true
  | _ => false

/-- `Type::isVoidType`. -/
def CTy.isVoidType : CTy → Bool
  | .builtin .voidTy => true
  | _ => false

/-- `Type::isVectorType`. -/
def CTy.isVectorType : CTy → Bool
  | .vector _ _ => true
  | _ => false

/-- `Type::isAnyComplexType`. -/
def CTy.isAnyComplexType : CTy → Bool
  | .complexTy _ => true
  | _ => false

/-- `Type::isReferenceType`. -/
def CTy.isReferenceType : CTy → Bool
  | .lvalueReference _ | .rvalueReference _ => true
  | _ => false

/-- `Type::isPointerType`. -/
def CTy.isPointerType : CTy → Bool
  | .pointer _ => true
  | _ => false

/-- `Type::isMemberPointerType`. -/
def CTy.isMemberPointerType : CTy → Bool
  | .memberPointer _ _ => true
  | _ => false

/-- `Type::isFunctionType`. -/
def CTy.isFunctionType : CTy → Bool
  | .functionProto _ _ | .functionNoProto _ => true
  | _ => false

/-- `Type::isScalarType` (from `Type.h`, per spec §4.3): builtin kinds in
`(Void, NullPtr]`, complete enumerations, pointers, block pointers,
member pointers and complex numbers. -/
def CTy.isScalarType : CTy → Bool
  | .builtin k => k != .voidTy
  | .enum d => d.isComplete
  | .pointer _ | .blockPointer _ | .memberPointer _ _ | .complexTy _ => true
  | _ => false

/-- `Type::isIntegralOrEnumerationType` (from `Type.h`, per spec §4.3):
builtin kinds in `[Bool, Int128]` or a complete enumeration. -/
def CTy.isIntegralOrEnumerationType : CTy → Bool
  | .builtin k => k.isInteger
  | .enum d => d.isComplete
  | _ => false

/-- `Type::getBaseElementTypeUnsafe`: strip the array spine down to the
first non-array node (element qualifiers are dropped, matching
`getElementType().getTypePtr()`). -/
def CTy.baseElementType : CTy → CTy
  | .constantArray _ e => e.baseElementType
  | .incompleteArray e => e.baseElementType
  | .variableArray e => e.baseElementType
  | .depSizedArray e => e.baseElementType
  | t => t

/-- `ASTContext::getBaseElementType`: strip the array spine, collecting
qualifiers along the way.  Because canonicalization hoists element
qualifiers onto the outermost qualified-type handle, the collected
qualifiers are exactly the handle's own. -/
def CQual.getBaseElementType : CQual → CQual
  | .mk q ty => .mk q ty.baseElementType

/-- `Type::isIncompleteType` (Type.cpp:1975): void, type variables,
enums without a complete definition or fixed underlying type, records
without a complete definition, constant arrays of incomplete element
type and incomplete arrays.  The `MemberPointer` case returns `false`
outside the Microsoft C++ ABI, which is the modelled target. -/
def CTy.isIncompleteType : CTy → Bool
  | .builtin k => k == .voidTy
  | .typeVariable => true
  | .enum d => if d.fixed then false else !d.completeDefinition
  | .record d => !d.flags.completeDefinition
  | .constantArray _ e => e.isIncompleteType
  | .incompleteArray _ => true
  | _ => false

mutual

/-- The construction-time *dependent* flag (`Type::isDependentType`):
true for unresolved template parameters, dependent-sized arrays and
undeduced placeholders created in dependent contexts, and propagated
from children everywhere else. -/
def CTy.isDependentType : CTy → Bool
  | .builtin _ => false
  | .pointer p => p.tyDependent
  | .blockPointer p => p.tyDependent
  | .lvalueReference p => p.tyDependent
  | .rvalueReference p => p.tyDependent
  | .memberPointer cls p => cls.isDependentType || p.tyDependent
  | .constantArray _ e => e.isDependentType
  | .incompleteArray e => e.isDependentType
  | .variableArray e => e.isDependentType
  | .depSizedArray _ => true
  | .vector e _ => e.isDependentType
  | .complexTy e => e.isDependentType
  | .atomic v => v.tyDependent
  | .functionProto r ps => r.tyDependent || CQual.anyDependent ps
  | .functionNoProto r => r.tyDependent
  | .record _ => false
  | .enum _ => false
  | .autoTy dep => dep
  | .templateTypeParm _ => true
  | .typeVariable => false

/-- Dependence of the node under a qualified-type handle. -/
def CQual.tyDependent : CQual → Bool
  | .mk _ t => t.isDependentType

/-- Any member of a parameter list is dependent. -/
def CQual.anyDependent : List CQual → Bool
  | [] => false
  | p :: rest => p.tyDependent || CQual.anyDependent rest

end

/-! ### Structural predicate engine -/

theorem CTy.sizeOf_baseElementType_le (t : CTy) :
    sizeOf t.baseElementType ≤ sizeOf t := by
  cases t
  case constantArray n e =>
    have h := CTy.sizeOf_baseElementType_le e
    simp only [CTy.baseElementType]
    simp_arith
    omega
  case incompleteArray e =>
    have h := CTy.sizeOf_baseElementType_le e
    simp only [CTy.baseElementType]
    simp_arith
    omega
  case variableArray e =>
    have h := CTy.sizeOf_baseElementType_le e
    simp only [CTy.baseElementType]
    simp_arith
    omega
  case depSizedArray e =>
    have h := CTy.sizeOf_baseElementType_le e
    simp only [CTy.baseElementType]
    simp_arith
    omega
  all_goals simp [CTy.baseElementType]

/-- Language-mode options read by the predicate engine. -/
structure LangOpts where
  cPlusPlus11 : Bool
  cPlusPlus14 : Bool
deriving DecidableEq, Repr

/-- `QualType::isTrivialType` (Type.cpp:2109): array types recurse to the
base element; then incomplete types, `__strong`/`__weak` lifetimes and
dependent canonical types are rejected; scalars and vectors pass; C++
record types require a default constructor, no non-trivial default
constructor and trivial copyability, while plain C records pass.  (The
`isNull()` entry check has no counterpart: the embedding has no null
type handle.) -/
def CQual.isTrivialType : CQual → Bool
  | .mk q (.constantArray _ e) => CQual.isTrivialType (.mk q e.baseElementType)
  | .mk q (.incompleteArray e) => CQual.isTrivialType (.mk q e.baseElementType)
  | .mk q (.variableArray e) => CQual.isTrivialType (.mk q e.baseElementType)
  | .mk q (.depSizedArray e) => CQual.isTrivialType (.mk q e.baseElementType)
  | .mk q ty =>
    if ty.isIncompleteType then false
    else if q.hasNonTrivialObjCLifetime then false
    else if ty.isDependentType then false
    else if ty.isScalarType || ty.isVectorType then true
    else
      match ty with
      | .record d =>
        if d.flags.isCXX then
          d.flags.hasDefaultConstructor &&
            !d.flags.hasNonTrivialDefaultConstructor &&
            d.flags.isTriviallyCopyable
        else true
      | _ => false
termination_by t => sizeOf t
decreasing_by
  all_goals
    simp_arith
    have := CTy.sizeOf_baseElementType_le e
    omega

/-- `QualType::isTriviallyCopyableType` (Type.cpp:2158): array types
recurse to the base element; `__strong`/`__weak` lifetimes, dependent and
incomplete canonical types are rejected; scalars and vectors pass; C++
record types defer to the declaration's `isTriviallyCopyable` flag, and
any other record passes. -/
def CQual.isTriviallyCopyableType : CQual → Bool
  | .mk q (.constantArray _ e) =>
      CQual.isTriviallyCopyableType (.mk q e.baseElementType)
  | .mk q (.incompleteArray e) =>
      CQual.isTriviallyCopyableType (.mk q e.baseElementType)
  | .mk q (.variableArray e) =>
      CQual.isTriviallyCopyableType (.mk q e.baseElementType)
  | .mk q (.depSizedArray e) =>
      CQual.isTriviallyCopyableType (.mk q e.baseElementType)
  | .mk q ty =>
    if q.hasNonTrivialObjCLifetime then false
    else if ty.isDependentType then false
    else if ty.isIncompleteType then false
    else if ty.isScalarType || ty.isVectorType then true
    else
      match ty with
      | .record d =>
        if d.flags.isCXX && !d.flags.isTriviallyCopyable then false else true
      | _ => false
termination_by t => sizeOf t
decreasing_by
  all_goals
    simp_arith
    have := CTy.sizeOf_baseElementType_le e
    omega

/-- `Type::isStandardLayoutType` (Type.cpp:2413): dependent types are
rejected; the query then moves to the base element, rejecting incomplete
elements, accepting scalars and vectors, deferring to the declaration's
`isStandardLayout` flag for C++ records and accepting other records. -/
def CTy.isStandardLayoutType (ty : CTy) : Bool :=
  if ty.isDependentType then false
  else
    let baseTy := ty.baseElementType
    if baseTy.isIncompleteType then false
    else if baseTy.isScalarType || baseTy.isVectorType then true
    else
      match baseTy with
      | .record d =>
        if d.flags.isCXX && !d.flags.isStandardLayout then false else true
      | _ => false

/-- `QualType::isCXX98PODType` (Type.cpp:2061): incomplete arrays recurse
to the base element; incomplete types and `__strong`/`__weak` lifetimes
are rejected; then the canonical shape is dispatched: constant and
variable arrays recurse to the base element, pointer-like, builtin,
complex, vector and enumeration shapes pass, record types defer to the
declaration's `isPOD` flag for C++ classes and pass for C records, and
every other shape (including dependent ones) fails. -/
def CQual.isCXX98PODType : CQual → Bool
  | .mk q (.incompleteArray e) => CQual.isCXX98PODType (.mk q e.baseElementType)
  | .mk q ty =>
    if ty.isIncompleteType then false
    else if q.hasNonTrivialObjCLifetime then false
    else
      match ty with
      | .variableArray e => CQual.isCXX98PODType (.mk q e.baseElementType)
      | .constantArray _ e => CQual.isCXX98PODType (.mk q e.baseElementType)
      | .blockPointer _ | .builtin _ | .complexTy _ | .pointer _
      | .memberPointer _ _ | .vector _ _ => true
      | .enum _ => true
      | .record d => if d.flags.isCXX then d.flags.isPOD else true
      | _ => false
termination_by t => sizeOf t
decreasing_by
  all_goals
    simp_arith
    have := CTy.sizeOf_baseElementType_le e
    omega

/-- `QualType::isCXX11PODType` (Type.cpp:2450): dependent types and
`__strong`/`__weak` lifetimes are rejected; the query then moves to the
base element, rejecting incomplete elements, accepting scalars and
vectors, requiring both the `isTrivial` and `isStandardLayout`
declaration flags for C++ records and accepting other records. -/
def CQual.isCXX11PODType : CQual → Bool
  | .mk q ty =>
    if ty.isDependentType then false
    else if q.hasNonTrivialObjCLifetime then false
    else
      let baseTy := ty.baseElementType
      if baseTy.isIncompleteType then false
      else if baseTy.isScalarType || baseTy.isVectorType then true
      else
        match baseTy with
        | .record d =>
          if d.flags.isCXX then
            if !d.flags.isTrivial then false
            else if !d.flags.isStandardLayout then false
            else true
          else true
        | _ => false

/-- `QualType::isPODType` (Type.cpp:2053): C++11 mode uses the relaxed
definition, earlier modes the C++98 one. -/
def CQual.isPODType (lo : LangOpts) (t : CQual) : Bool :=
  if lo.cPlusPlus11 then t.isCXX11PODType else t.isCXX98PODType

mutual

/-- Modelled from the spec: `CXXRecordDecl::isEmpty`, the
declaration-storage collaborator's emptiness flag, which `Type.cpp` only
reads.  Per spec §4.3 an empty struct/class has no fields and no
non-empty base classes. -/
def RecordDecl.isEmptyModel : RecordDecl → Bool
  | .mk _ fs bs _ _ _ => fs.isEmpty && allBasesEmpty bs

/-- All base classes in the list are empty records. -/
def allBasesEmpty : List CXXBase → Bool
  | [] => true
  | .mk _ d :: rest => d.isEmptyModel && allBasesEmpty rest

end

/-- `isStructEmpty` (Type.cpp:2212): a record is empty if it has no
fields and, for C++ classes, the declaration's emptiness flag holds. -/
def isStructEmptyDecl (d : RecordDecl) : Bool :=
  if !d.fields.isEmpty then false
  else if d.flags.isCXX then d.isEmptyModel
  else true

/-- Character offset of the first field (`toCharUnitsFromBits` of
`getFieldOffset(*RD->field_begin())`); `0` when there are no fields (in
which case it is never consulted). -/
def firstFieldOffsetChars : List FieldDecl → Nat
  | [] => 0
  | f0 :: _ => f0.offsetBits / 8

/-- The tail of the struct walk (Type.cpp:2253-2282), combining the
accumulated base size, the field list and the field-walk result: a failed
base walk fails; with no fields the struct size must equal the base
size; otherwise the first field must start exactly at the base size and
the field walk must account for every character up to the struct
size. -/
def structTail (sz : Nat) (basesRes : Option Nat) (fs : List FieldDecl)
    (walkRes : Option Nat) : Bool :=
  match basesRes with
  | none => false
  | some baseSize =>
    match fs with
    | [] => sz == baseSize
    | f0 :: _ =>
      if baseSize != f0.offsetBits / 8 then false
      else
        match walkRes with
        | none => false
        | some curEnd => curEnd == sz

mutual

/-- `QualType::hasUniqueObjectRepresentations` (Type.cpp:2285): arrays
recurse to the base element; non-trivially-copyable types and function
types fail; integral, enumeration, pointer and member-pointer types
pass; record types reject lambda closures, then dispatch to the union or
struct walk; everything else fails.  (The `isNull()` entry check has no
counterpart: the embedding has no null type handle.) -/
def CQual.hasUniqueObjectRepresentations : CQual → Bool
  | .mk q (.constantArray _ e) =>
      CQual.hasUniqueObjectRepresentations (.mk q e.baseElementType)
  | .mk q (.incompleteArray e) =>
      CQual.hasUniqueObjectRepresentations (.mk q e.baseElementType)
  | .mk q (.variableArray e) =>
      CQual.hasUniqueObjectRepresentations (.mk q e.baseElementType)
  | .mk q (.depSizedArray e) =>
      CQual.hasUniqueObjectRepresentations (.mk q e.baseElementType)
  | .mk q ty =>
    if !(CQual.mk q ty).isTriviallyCopyableType then false
    else if ty.isFunctionType then false
    else if ty.isIntegralOrEnumerationType then true
    else if ty.isPointerType || ty.isMemberPointerType then true
    else
      match ty with
      | .record d =>
        if d.flags.isLambda then false
        else if d.flags.isUnion then unionHasUnique d
        else structHasUnique d
      | _ => false
termination_by t => sizeOf t
decreasing_by
  all_goals
    first
    | (simp_arith
       have h := CTy.sizeOf_baseElementType_le e
       omega)
    | (simp_arith
       omega)
    | simp_arith

/-- `QualType::unionHasUniqueObjectRepresentations` (Type.cpp:2196):
every field must have unique representations and fill the whole union
size. -/
def unionHasUnique : RecordDecl → Bool
  | .mk _ fs _ sz _ _ => unionFieldsOK sz fs
termination_by d => sizeOf d
decreasing_by
  all_goals
    first
    | (simp_arith
       omega)
    | simp_arith

/-- The field loop of the union walk. -/
def unionFieldsOK (unionSize : Nat) : List FieldDecl → Bool
  | [] => true
  | .mk fty _ fsz :: rest =>
    if !fty.hasUniqueObjectRepresentations then false
    else if fsz != unionSize then false
    else unionFieldsOK unionSize rest
termination_by l => sizeOf l
decreasing_by
  all_goals
    first
    | (simp_arith
       omega)
    | simp_arith

/-- `QualType::structHasUniqueObjectRepresentations` (Type.cpp:2227):
empty structs fail; virtual bases fail; non-empty bases must themselves
pass the struct walk and contribute their size; with no fields the
struct size must equal the accumulated base size; otherwise the first
field must start exactly after the bases and the field walk must account
for every character up to the struct size. -/
def structHasUnique : RecordDecl → Bool
  | .mk f fs bs sz link lu =>
    if isStructEmptyDecl (.mk f fs bs sz link lu) then false
    else
      structTail sz (structBasesSize (if f.isCXX then bs else []) 0) fs
        (structFieldsWalk fs (firstFieldOffsetChars fs))
termination_by d => sizeOf d
decreasing_by
  all_goals
    first
    | (split <;> simp_arith)
    | (simp_arith
       omega)
    | simp_arith

/-- The base-class loop of the struct walk: rejects virtual bases,
checks non-empty bases recursively and accumulates their sizes (the
empty-base optimization contributes no size). -/
def structBasesSize : List CXXBase → Nat → Option Nat
  | [], acc => some acc
  | .mk virt bd :: rest, acc =>
    if virt then none
    else if !isStructEmptyDecl bd then
      if !structHasUnique bd then none
      else structBasesSize rest (acc + bd.sizeChars)
    else structBasesSize rest acc
termination_by l acc => sizeOf l
decreasing_by
  all_goals
    first
    | (simp_arith
       omega)
    | simp_arith

/-- The field loop of the struct walk: each field must have unique
representations and start exactly at the accumulated offset; the walk
returns the offset after the last field.  Bit offsets are converted to
characters (`toCharUnitsFromBits`, 8-bit characters). -/
def structFieldsWalk : List FieldDecl → Nat → Option Nat
  | [], cur => some cur
  | .mk fty fo fsz :: rest, cur =>
    if !fty.hasUniqueObjectRepresentations then none
    else if fo / 8 != cur then none
    else structFieldsWalk rest (cur + fsz)
termination_by l cur => sizeOf l
decreasing_by
  all_goals
    first
    | (simp_arith
       omega)
    | simp_arith

end

/-- The base-element part of `Type::isLiteralType` (Type.cpp:2366-2410):
incomplete elements fail; scalars, vectors, complex numbers and
references pass; C++ records defer to the declaration's `isLiteral` flag
(other records pass); an atomic wrapper re-runs the full `isLiteralType`
check on its value type (the recursive call is inlined here); a
still-undeduced placeholder passes; everything else fails. -/
def literalBaseCheck (lo : LangOpts) (bt : CTy) : Bool :=
  if bt.isIncompleteType then false
  else if bt.isScalarType || bt.isVectorType || bt.isAnyComplexType then
    true
  else if bt.isReferenceType then true
  else
    match bt with
    | .record d => if d.flags.isCXX then d.flags.isLiteral else true
    | .atomic (.mk _ vt) =>
      if vt.isDependentType then false
      else if lo.cPlusPlus14 && vt.isVoidType then true
      else if vt.isVariableArrayType then false
      else literalBaseCheck lo vt.baseElementType
    | .autoTy _ => true
    | _ => false
termination_by sizeOf bt
decreasing_by
  have h := CTy.sizeOf_baseElementType_le vt
  simp_arith
  omega

/-- `Type::isLiteralType` (Type.cpp:2347): dependent types fail; `void`
passes only in C++14 mode; variable arrays fail; the query then moves to
the base element (`literalBaseCheck`). -/
def CTy.isLiteralType (lo : LangOpts) (ty : CTy) : Bool :=
  if ty.isDependentType then false
  else if lo.cPlusPlus14 && ty.isVoidType then true
  else if ty.isVariableArrayType then false
  else literalBaseCheck lo ty.baseElementType

/-! ### The recursive base-element law (C1) -/

/-- The three non-dependent array variants of the claim. -/
inductive ArrKind where
  | constArr (size : Nat)
  | incompleteArr
  | varArr
deriving DecidableEq, Repr

/-- Wrap a node in an array shape. -/
def arrayWrap (k : ArrKind) (ty : CTy) : CTy :=
  match k with
  | .constArr n => .constantArray n ty
  | .incompleteArr => .incompleteArray ty
  | .varArr => .variableArray ty

/-- Form an array type over an element type.  Following the interning
collaborator's canonicalization, the element's qualifiers are hoisted
onto the array's qualified-type handle. -/
def mkArrayOf (k : ArrKind) (t : CQual) : CQual :=
  .mk t.quals (arrayWrap k t.ty)

/-- The array spine contains no incomplete-array layer (an array whose
element is an incomplete array cannot be formed by the type system). -/
def CTy.arraySpineComplete : CTy → Bool
  | .constantArray _ e => e.arraySpineComplete
  | .variableArray e => e.arraySpineComplete
  | .depSizedArray e => e.arraySpineComplete
  | .incompleteArray _ => false
  | _ => true

theorem CTy.baseElementType_of_nonarray {t : CTy} (h : t.isArrayType = false) :
    t.baseElementType = t := by
  cases t <;> simp_all [CTy.isArrayType, CTy.baseElementType]

theorem CTy.baseElementType_nonarray (t : CTy) :
    t.baseElementType.isArrayType = false := by
  cases t
  case constantArray n e =>
    simpa [CTy.baseElementType] using CTy.baseElementType_nonarray e
  case incompleteArray e =>
    simpa [CTy.baseElementType] using CTy.baseElementType_nonarray e
  case variableArray e =>
    simpa [CTy.baseElementType] using CTy.baseElementType_nonarray e
  case depSizedArray e =>
    simpa [CTy.baseElementType] using CTy.baseElementType_nonarray e
  all_goals simp [CTy.baseElementType, CTy.isArrayType]

theorem CTy.baseElementType_arrayWrap (k : ArrKind) (ty : CTy) :
    (arrayWrap k ty).baseElementType = ty.baseElementType := by
  cases k <;> simp [arrayWrap, CTy.baseElementType]

theorem CTy.baseElementType_eq_of_array {t : CTy} (h : t.isArrayType = true) :
    t.baseElementType.baseElementType = t.baseElementType := by
  exact CTy.baseElementType_of_nonarray (CTy.baseElementType_nonarray t)

theorem arrayWrap_isArrayType (k : ArrKind) (ty : CTy) :
    (arrayWrap k ty).isArrayType = true := by
  cases k <;> simp [arrayWrap, CTy.isArrayType]

theorem arrayWrap_isDependentType (k : ArrKind) (ty : CTy) :
    (arrayWrap k ty).isDependentType = ty.isDependentType := by
  cases k <;> simp [arrayWrap, CTy.isDependentType]

theorem isTrivialType_arr_unfold (q : Qualifiers) (ty : CTy)
    (h : ty.isArrayType = true) :
    CQual.isTrivialType (.mk q ty) =
      CQual.isTrivialType (.mk q ty.baseElementType) := by
  cases ty <;> simp_all [CTy.isArrayType] <;>
    simp [CQual.isTrivialType, CTy.baseElementType]

theorem isTriviallyCopyable_arr_unfold (q : Qualifiers) (ty : CTy)
    (h : ty.isArrayType = true) :
    CQual.isTriviallyCopyableType (.mk q ty) =
      CQual.isTriviallyCopyableType (.mk q ty.baseElementType) := by
  cases ty <;> simp_all [CTy.isArrayType] <;>
    simp [CQual.isTriviallyCopyableType, CTy.baseElementType]

theorem hasUnique_arr_unfold (q : Qualifiers) (ty : CTy)
    (h : ty.isArrayType = true) :
    CQual.hasUniqueObjectRepresentations (.mk q ty) =
      CQual.hasUniqueObjectRepresentations (.mk q ty.baseElementType) := by
  cases ty <;> simp_all [CTy.isArrayType] <;>
    simp [CQual.hasUniqueObjectRepresentations, CTy.baseElementType]

theorem isTrivialType_law (k : ArrKind) (T : CQual) :
    (mkArrayOf k T).isTrivialType = T.isTrivialType := by
  obtain ⟨q, ty⟩ := T
  show CQual.isTrivialType (.mk q (arrayWrap k ty)) = _
  rw [isTrivialType_arr_unfold q _ (arrayWrap_isArrayType k ty),
    CTy.baseElementType_arrayWrap]
  by_cases h : ty.isArrayType = true
  · rw [isTrivialType_arr_unfold q ty h]
  · rw [CTy.baseElementType_of_nonarray (Bool.not_eq_true _ ▸ h)]

theorem isTriviallyCopyable_law (k : ArrKind) (T : CQual) :
    (mkArrayOf k T).isTriviallyCopyableType = T.isTriviallyCopyableType := by
  obtain ⟨q, ty⟩ := T
  show CQual.isTriviallyCopyableType (.mk q (arrayWrap k ty)) = _
  rw [isTriviallyCopyable_arr_unfold q _ (arrayWrap_isArrayType k ty),
    CTy.baseElementType_arrayWrap]
  by_cases h : ty.isArrayType = true
  · rw [isTriviallyCopyable_arr_unfold q ty h]
  · rw [CTy.baseElementType_of_nonarray (Bool.not_eq_true _ ▸ h)]

theorem hasUnique_law (k : ArrKind) (T : CQual) :
    (mkArrayOf k T).hasUniqueObjectRepresentations =
      T.hasUniqueObjectRepresentations := by
  obtain ⟨q, ty⟩ := T
  show CQual.hasUniqueObjectRepresentations (.mk q (arrayWrap k ty)) = _
  rw [hasUnique_arr_unfold q _ (arrayWrap_isArrayType k ty),
    CTy.baseElementType_arrayWrap]
  by_cases h : ty.isArrayType = true
  · rw [hasUnique_arr_unfold q ty h]
  · rw [CTy.baseElementType_of_nonarray (Bool.not_eq_true _ ▸ h)]

theorem isStandardLayout_law (k : ArrKind) (T : CQual) :
    (mkArrayOf k T).ty.isStandardLayoutType = T.ty.isStandardLayoutType := by
  obtain ⟨q, ty⟩ := T
  show (arrayWrap k ty).isStandardLayoutType = ty.isStandardLayoutType
  simp only [CTy.isStandardLayoutType]
  rw [arrayWrap_isDependentType, CTy.baseElementType_arrayWrap]

theorem isCXX11POD_law (k : ArrKind) (T : CQual) :
    (mkArrayOf k T).isCXX11PODType = T.isCXX11PODType := by
  obtain ⟨q, ty⟩ := T
  show CQual.isCXX11PODType (.mk q (arrayWrap k ty)) = _
  simp only [CQual.isCXX11PODType]
  rw [arrayWrap_isDependentType, CTy.baseElementType_arrayWrap]

theorem pod98_false_of_lifetime (q : Qualifiers)
    (hlt : q.hasNonTrivialObjCLifetime = true) (ty : CTy) :
    CQual.isCXX98PODType (.mk q ty) = false := by
  cases ty
  case incompleteArray e =>
    have hne := CTy.baseElementType_nonarray e
    rw [show CQual.isCXX98PODType (.mk q (.incompleteArray e)) =
        CQual.isCXX98PODType (.mk q e.baseElementType) from by
      simp [CQual.isCXX98PODType]]
    cases hb : e.baseElementType <;>
      simp_all [CTy.isArrayType, CQual.isCXX98PODType]
  all_goals simp [CQual.isCXX98PODType, hlt]

theorem base_incomplete_of_spine (ty : CTy) :
    ty.arraySpineComplete = true → ty.isIncompleteType = true →
    ty.isArrayType = true →
    ty.baseElementType.isIncompleteType = true := by
  intro hsp hinc harr
  cases ty
  case constantArray n e =>
    by_cases he : e.isArrayType = true
    · have h := base_incomplete_of_spine e
        (by simpa [CTy.arraySpineComplete] using hsp)
        (by simpa [CTy.isIncompleteType] using hinc) he
      simpa [CTy.baseElementType] using h
    · have hbe : e.baseElementType = e :=
        CTy.baseElementType_of_nonarray (Bool.not_eq_true _ ▸ he)
      simp only [CTy.baseElementType, hbe]
      simpa [CTy.isIncompleteType] using hinc
  case variableArray e => simp [CTy.isIncompleteType] at hinc
  case depSizedArray e => simp [CTy.isIncompleteType] at hinc
  case incompleteArray e => simp [CTy.arraySpineComplete] at hsp
  all_goals simp [CTy.isArrayType] at harr

theorem pod98_nonarray_incomplete_false (q : Qualifiers) (X : CTy)
    (hna : X.isArrayType = false) (hinc : X.isIncompleteType = true) :
    CQual.isCXX98PODType (.mk q X) = false := by
  cases X <;> simp_all [CTy.isArrayType, CQual.isCXX98PODType]

theorem pod98_base_false_of_incomplete (q : Qualifiers) (ty : CTy)
    (hsp : ty.arraySpineComplete = true) (hinc : ty.isIncompleteType = true)
    (harr : ty.isArrayType = true) :
    CQual.isCXX98PODType (.mk q ty.baseElementType) = false :=
  pod98_nonarray_incomplete_false q ty.baseElementType
    (CTy.baseElementType_nonarray ty)
    (base_incomplete_of_spine ty hsp hinc harr)

theorem pod98_eq_constArr (q : Qualifiers) (n : Nat) (e : CTy) :
    CQual.isCXX98PODType (.mk q (.constantArray n e)) =
      (if (CTy.constantArray n e).isIncompleteType then false
       else if q.hasNonTrivialObjCLifetime then false
       else CQual.isCXX98PODType (.mk q e.baseElementType)) := by
  simp only [CQual.isCXX98PODType]

theorem pod98_eq_varArr (q : Qualifiers) (e : CTy) :
    CQual.isCXX98PODType (.mk q (.variableArray e)) =
      (if (CTy.variableArray e).isIncompleteType then false
       else if q.hasNonTrivialObjCLifetime then false
       else CQual.isCXX98PODType (.mk q e.baseElementType)) := by
  simp only [CQual.isCXX98PODType]

theorem pod98_eq_incompleteArr (q : Qualifiers) (e : CTy) :
    CQual.isCXX98PODType (.mk q (.incompleteArray e)) =
      CQual.isCXX98PODType (.mk q e.baseElementType) := by
  simp only [CQual.isCXX98PODType]

theorem pod98_arr_unfold (q : Qualifiers) (ty : CTy)
    (hsp : ty.arraySpineComplete = true) (harr : ty.isArrayType = true)
    (hds : ty.isDependentSizedArrayType = false) :
    CQual.isCXX98PODType (.mk q ty) =
      CQual.isCXX98PODType (.mk q ty.baseElementType) := by
  cases ty
  case constantArray n e =>
    rw [pod98_eq_constArr]
    by_cases hinc : (CTy.constantArray n e).isIncompleteType = true
    · rw [if_pos hinc]
      exact (pod98_base_false_of_incomplete q (.constantArray n e) hsp hinc
        (by simp [CTy.isArrayType])).symm
    · rw [if_neg hinc]
      by_cases hlt : q.hasNonTrivialObjCLifetime = true
      · rw [if_pos hlt]
        exact (pod98_false_of_lifetime q hlt _).symm
      · rw [if_neg hlt]
        rfl
  case variableArray e =>
    rw [pod98_eq_varArr]
    by_cases hinc : (CTy.variableArray e).isIncompleteType = true
    · rw [if_pos hinc]
      exact (pod98_base_false_of_incomplete q (.variableArray e) hsp hinc
        (by simp [CTy.isArrayType])).symm
    · rw [if_neg hinc]
      by_cases hlt : q.hasNonTrivialObjCLifetime = true
      · rw [if_pos hlt]
        exact (pod98_false_of_lifetime q hlt _).symm
      · rw [if_neg hlt]
        rfl
  case incompleteArray e => simp [CTy.arraySpineComplete] at hsp
  case depSizedArray e => simp [CTy.isDependentSizedArrayType] at hds
  all_goals simp [CTy.isArrayType] at harr

theorem isPOD_law (lo : LangOpts) (k : ArrKind) (T : CQual)
    (hsp : T.ty.arraySpineComplete = true)
    (hds : T.ty.isDependentSizedArrayType = false) :
    (mkArrayOf k T).isPODType lo = T.isPODType lo := by
  unfold CQual.isPODType
  by_cases h11 : lo.cPlusPlus11 = true
  · simp [h11, isCXX11POD_law]
  · simp only [if_neg h11]
    obtain ⟨q, ty⟩ := T
    simp only [CQual.ty] at hsp hds
    show CQual.isCXX98PODType (.mk q (arrayWrap k ty)) = _
    have hrhs : CQual.isCXX98PODType (.mk q ty) =
        CQual.isCXX98PODType (.mk q ty.baseElementType) := by
      by_cases harr : ty.isArrayType = true
      · exact pod98_arr_unfold q ty hsp harr hds
      · rw [CTy.baseElementType_of_nonarray (Bool.not_eq_true _ ▸ harr)]
    cases k with
    | incompleteArr =>
      rw [hrhs]
      simp [CQual.isCXX98PODType, mkArrayOf, arrayWrap]
    | constArr n =>
      rw [show arrayWrap (.constArr n) ty = .constantArray n ty from rfl,
        pod98_arr_unfold q _ (by simpa [CTy.arraySpineComplete] using hsp)
          (by simp [CTy.isArrayType])
          (by simp [CTy.isDependentSizedArrayType]),
        show (CTy.constantArray n ty).baseElementType =
          ty.baseElementType from by simp [CTy.baseElementType],
        hrhs]
    | varArr =>
      rw [show arrayWrap .varArr ty = .variableArray ty from rfl,
        pod98_arr_unfold q _ (by simpa [CTy.arraySpineComplete] using hsp)
          (by simp [CTy.isArrayType])
          (by simp [CTy.isDependentSizedArrayType]),
        show (CTy.variableArray ty).baseElementType =
          ty.baseElementType from by simp [CTy.baseElementType],
        hrhs]

/-- C1 counterexample: in pre-C++11 language mode, `isPODType` of a
constant array over the dependent-sized array `int[N]` is `true` (the
switch on the outer canonical shape recurses to the base element `int`),
while `isPODType` of `int[N]` itself is `false` (a dependent-sized array
falls into the default case of the switch), so the recursive
base-element law fails for the era-1 POD predicate at the well-formed
element type `int[N]`. -/
theorem pod_array_law_counterexample :
    CQual.isPODType ⟨false, false⟩
        (mkArrayOf (.constArr 5)
          (.mk Qualifiers.empty (.depSizedArray (.builtin .intTy)))) = true ∧
    CQual.isPODType ⟨false, false⟩
        (.mk Qualifiers.empty (.depSizedArray (.builtin .intTy))) = false := by
  constructor <;>
    simp [CQual.isPODType, mkArrayOf, arrayWrap, CQual.quals, CQual.ty,
      CQual.isCXX98PODType, CTy.isIncompleteType,
      Qualifiers.hasNonTrivialObjCLifetime, Qualifiers.empty,
      CTy.baseElementType]

/-- C1 (amended): for every array type over an element type `T`
(constant, incomplete or variable sized), `isTrivialType`,
`isTriviallyCopyableType`, `isStandardLayoutType`, `isPODType` and
`hasUniqueObjectRepresentations` of the array agree with the predicate at
`T`, provided `T` is itself neither a dependent-sized array nor an array
whose spine contains an incomplete array (the latter cannot be formed by
the type system; the former is the counterexample's case). -/
theorem predicates_recurse_to_array_base_element (lo : LangOpts)
    (k : ArrKind) (T : CQual) (hsp : T.ty.arraySpineComplete = true)
    (hds : T.ty.isDependentSizedArrayType = false) :
    (mkArrayOf k T).isTrivialType = T.isTrivialType ∧
    (mkArrayOf k T).isTriviallyCopyableType = T.isTriviallyCopyableType ∧
    (mkArrayOf k T).ty.isStandardLayoutType = T.ty.isStandardLayoutType ∧
    (mkArrayOf k T).isPODType lo = T.isPODType lo ∧
    (mkArrayOf k T).hasUniqueObjectRepresentations =
      T.hasUniqueObjectRepresentations :=
  ⟨isTrivialType_law k T, isTriviallyCopyable_law k T,
    isStandardLayout_law k T, isPOD_law lo k T hsp hds, hasUnique_law k T⟩

/-- Witness for amended C1 at a concrete input: an incomplete array of
`int` in C++98 mode. -/
theorem predicates_recurse_to_array_base_element_witness :
    (mkArrayOf .incompleteArr
        (.mk Qualifiers.empty (.builtin .intTy))).isTrivialType =
      (CQual.mk Qualifiers.empty (.builtin .intTy)).isTrivialType ∧
    (mkArrayOf .incompleteArr
        (.mk Qualifiers.empty (.builtin .intTy))).isTriviallyCopyableType =
      (CQual.mk Qualifiers.empty (.builtin .intTy)).isTriviallyCopyableType ∧
    (mkArrayOf .incompleteArr
        (.mk Qualifiers.empty (.builtin .intTy))).ty.isStandardLayoutType =
      (CQual.mk Qualifiers.empty (.builtin .intTy)).ty.isStandardLayoutType ∧
    CQual.isPODType ⟨false, false⟩
        (mkArrayOf .incompleteArr (.mk Qualifiers.empty (.builtin .intTy))) =
      CQual.isPODType ⟨false, false⟩
        (.mk Qualifiers.empty (.builtin .intTy)) ∧
    CQual.hasUniqueObjectRepresentations
        (mkArrayOf .incompleteArr (.mk Qualifiers.empty (.builtin .intTy))) =
      CQual.hasUniqueObjectRepresentations
        (.mk Qualifiers.empty (.builtin .intTy)) :=
  predicates_recurse_to_array_base_element ⟨false, false⟩ .incompleteArr
    (.mk Qualifiers.empty (.builtin .intTy)) (by decide) (by decide)

/-- `QualType::DestructionKind`. -/
inductive DestructionKind where
  | DK_none
  | DK_cxx_destructor
  | DK_objc_strong_lifetime
  | DK_objc_weak_lifetime
deriving DecidableEq, Repr

/-- `QualType::isDestructedTypeImpl` (Type.cpp:4222): `__strong` and
`__weak` lifetimes classify as the corresponding Objective-C release;
otherwise the base element's C++ record declaration is consulted, and
only a record with a definition and a non-trivial destructor classifies
as needing a C++ destructor run. -/
def CQual.isDestructedTypeImpl : CQual → DestructionKind
  | .mk q ty =>
    match q.lifetime with
    | .OCL_Strong => .DK_objc_strong_lifetime
    | .OCL_Weak => .DK_objc_weak_lifetime
    | _ =>
      match ty.baseElementType with
      | .record d =>
        if d.flags.isCXX && d.flags.hasDefinition &&
            !d.flags.hasTrivialDestructor then
          .DK_cxx_destructor
        else .DK_none
      | _ => .DK_none

/-! ### Linkage propagator (C2)

`computeCachedProperties` (Type.cpp:3564) computes, for a canonical
shape, the pair (linkage, has-local-or-unnamed-subtype).  `Cache::get`
on a qualified child type reads the child node's cached pair, which for
canonical nodes is exactly `computeCachedProperties` of the node, so in
this canonical embedding the cache delegation is the identity. -/

/-- `CachedProperties` (Type.cpp:3498): the cached pair of linkage and
has-local-or-unnamed-type flag. -/
structure CachedProperties where
  L : Linkage
  hasLocalOrUnnamed : Bool
deriving DecidableEq, Repr

/-- `merge` on `CachedProperties` (Type.cpp:3508): minimum linkage and
OR of the local-or-unnamed flags. -/
def CachedProperties.merge (l r : CachedProperties) : CachedProperties :=
  ⟨minLinkage l.L r.L, l.hasLocalOrUnnamed || r.hasLocalOrUnnamed⟩

mutual

/-- `computeCachedProperties` (Type.cpp:3564): dependent shapes
(including dependent-sized arrays), undeduced placeholders, builtins and
type variables are external with no local/unnamed contribution; records
and enums take their declaration's linkage and local-or-unnamed status;
compound shapes recurse into their structural children, member pointers
merging class and pointee, and function prototypes folding the merge
over the return type and every parameter type. -/
def computeCachedProperties : CTy → CachedProperties
  | .depSizedArray _ => ⟨.ExternalLinkage, false⟩
  | .templateTypeParm _ => ⟨.ExternalLinkage, false⟩
  | .autoTy _ => ⟨.ExternalLinkage, false⟩
  | .builtin _ => ⟨.ExternalLinkage, false⟩
  | .record d => ⟨d.link, d.localOrUnnamed⟩
  | .enum d => ⟨d.link, d.localOrUnnamed⟩
  | .complexTy e => computeCachedProperties e
  | .pointer (.mk _ t) => computeCachedProperties t
  | .blockPointer (.mk _ t) => computeCachedProperties t
  | .lvalueReference (.mk _ t) => computeCachedProperties t
  | .rvalueReference (.mk _ t) => computeCachedProperties t
  | .memberPointer cls (.mk _ t) =>
    CachedProperties.merge (computeCachedProperties cls)
      (computeCachedProperties t)
  | .constantArray _ e => computeCachedProperties e
  | .incompleteArray e => computeCachedProperties e
  | .variableArray e => computeCachedProperties e
  | .vector e _ => computeCachedProperties e
  | .functionNoProto (.mk _ r) => computeCachedProperties r
  | .functionProto (.mk _ r) ps => cpParams (computeCachedProperties r) ps
  | .atomic (.mk _ v) => computeCachedProperties v
  | .typeVariable => ⟨.ExternalLinkage, false⟩
termination_by t => sizeOf t
decreasing_by all_goals simp_arith

/-- The parameter loop of the `FunctionProto` case (Type.cpp:3634-3637):
`result = merge(result, Cache::get(param))` over the parameter list. -/
def cpParams (acc : CachedProperties) : List CQual → CachedProperties
  | [] => acc
  | .mk _ t :: rest =>
    cpParams (CachedProperties.merge acc (computeCachedProperties t)) rest
termination_by l => sizeOf l
decreasing_by all_goals simp_arith

end

/-- Fold of `minLinkage` over a list, starting from `a`: the minimum of
`a :: ls` in the linkage lattice. -/
def linkListMin (a : Linkage) (ls : List Linkage) : Linkage :=
  ls.foldl minLinkage a

theorem minLinkage_le_left (a b : Linkage) : (minLinkage a b).le a := by
  cases a <;> cases b <;> decide

theorem minLinkage_le_right (a b : Linkage) : (minLinkage a b).le b := by
  cases a <;> cases b <;> decide

theorem minLinkage_choice (a b : Linkage) :
    minLinkage a b = a ∨ minLinkage a b = b := by
  cases a <;> cases b <;> simp [minLinkage] <;> decide

theorem Linkage.le_trans {a b c : Linkage} (h1 : a.le b) (h2 : b.le c) :
    a.le c :=
  Nat.le_trans h1 h2

theorem Linkage.le_refl (a : Linkage) : a.le a :=
  Nat.le_refl _

theorem linkListMin_le_init (ls : List Linkage) (a : Linkage) :
    (linkListMin a ls).le a := by
  induction ls generalizing a with
  | nil => exact Linkage.le_refl a
  | cons x rest ih =>
    exact Linkage.le_trans (ih (minLinkage a x)) (minLinkage_le_left a x)

theorem linkListMin_le_mem (ls : List Linkage) (a x : Linkage)
    (hx : x ∈ ls) : (linkListMin a ls).le x := by
  induction ls generalizing a with
  | nil => cases hx
  | cons y rest ih =>
    rcases List.mem_cons.mp hx with h | h
    · subst h
      exact Linkage.le_trans (linkListMin_le_init rest (minLinkage a x))
        (minLinkage_le_right a x)
    · exact ih (minLinkage a y) h

theorem linkListMin_mem (ls : List Linkage) (a : Linkage) :
    linkListMin a ls = a ∨ linkListMin a ls ∈ ls := by
  induction ls generalizing a with
  | nil => exact Or.inl rfl
  | cons y rest ih =>
    have hstep : linkListMin a (y :: rest) = linkListMin (minLinkage a y) rest := by
      rw [linkListMin, linkListMin, List.foldl_cons]
    rcases ih (minLinkage a y) with h | h
    · rcases minLinkage_choice a y with hm | hm
      · exact Or.inl ((hstep.trans h).trans hm)
      · exact Or.inr
          (List.mem_cons.mpr (Or.inl ((hstep.trans h).trans hm)))
    · exact Or.inr (List.mem_cons.mpr (Or.inr (hstep ▸ h)))

theorem foldl_or_eq_any (l : List Bool) (b : Bool) :
    l.foldl (· || ·) b = (b || l.any id) := by
  induction l generalizing b with
  | nil => simp
  | cons x rest ih =>
    simp [List.foldl, List.any, ih, Bool.or_assoc]

theorem cpParams_eq (acc : CachedProperties) (ps : List CQual) :
    cpParams acc ps =
      ⟨linkListMin acc.L (ps.map fun p => (computeCachedProperties p.ty).L),
        acc.hasLocalOrUnnamed ||
          ps.any fun p =>
            (computeCachedProperties p.ty).hasLocalOrUnnamed⟩ := by
  induction ps generalizing acc with
  | nil => simp [cpParams, linkListMin]
  | cons p rest ih =>
    obtain ⟨q, t⟩ := p
    rw [show cpParams acc (CQual.mk q t :: rest) =
      cpParams (CachedProperties.merge acc (computeCachedProperties t)) rest
      from by simp [cpParams]]
    rw [ih]
    simp [CachedProperties.merge, linkListMin, CQual.ty, Bool.or_assoc]

/-- C2: the computed linkage pair of a pointer type equals that of its
pointee node, and for a function prototype the computed linkage is the
minimum (in the linkage lattice) of the linkages of the return type and
all parameter types, with the has-local-or-unnamed flag being the OR of
the children's flags.  The minimality is stated both as the explicit
`minLinkage` fold and as lattice facts: the result is below every
child's linkage and is attained by one of them. -/
theorem linkage_pointer_function_merge_law :
    (∀ p : CQual,
      computeCachedProperties (.pointer p) = computeCachedProperties p.ty) ∧
    (∀ (r : CQual) (ps : List CQual),
      ((computeCachedProperties (.functionProto r ps)).L =
          linkListMin (computeCachedProperties r.ty).L
            (ps.map fun p => (computeCachedProperties p.ty).L) ∧
        (computeCachedProperties (.functionProto r ps)).hasLocalOrUnnamed =
          ((computeCachedProperties r.ty).hasLocalOrUnnamed ||
            ps.any fun p =>
              (computeCachedProperties p.ty).hasLocalOrUnnamed)) ∧
      (∀ x ∈ (computeCachedProperties r.ty).L ::
          ps.map fun p => (computeCachedProperties p.ty).L,
        (computeCachedProperties (.functionProto r ps)).L.le x) ∧
      (computeCachedProperties (.functionProto r ps)).L ∈
        (computeCachedProperties r.ty).L ::
          ps.map fun p => (computeCachedProperties p.ty).L) := by
  have hfp : ∀ (r : CQual) (ps : List CQual),
      computeCachedProperties (.functionProto r ps) =
        cpParams (computeCachedProperties r.ty) ps := by
    rintro ⟨q, t⟩ ps
    simp [computeCachedProperties, CQual.ty]
  refine ⟨?_, ?_⟩
  · rintro ⟨q, t⟩
    simp [computeCachedProperties, CQual.ty]
  · intro r ps
    rw [hfp, cpParams_eq]
    refine ⟨⟨rfl, rfl⟩, ?_, ?_⟩
    · intro x hx
      rcases List.mem_cons.mp hx with h | h
      · subst h
        exact linkListMin_le_init _ _
      · exact linkListMin_le_mem _ _ _ h
    · rcases linkListMin_mem
        (ps.map fun p => (computeCachedProperties p.ty).L)
        (computeCachedProperties r.ty).L with h | h
      · exact List.mem_cons.mpr (Or.inl h)
      · exact List.mem_cons.mpr (Or.inr h)

/-- Witness for C2 at concrete inputs: a pointer to `int`, and the
prototype `void(S)` where `S` is an internal-linkage record — the
function's linkage is below the parameter's linkage. -/
theorem linkage_pointer_function_merge_law_witness :
    computeCachedProperties
        (.pointer (.mk Qualifiers.empty (.builtin .intTy))) =
      computeCachedProperties
        (CQual.mk Qualifiers.empty (.builtin .intTy)).ty ∧
    (computeCachedProperties (.functionProto
        (.mk Qualifiers.empty (.builtin .voidTy))
        [.mk Qualifiers.empty
          (.record (.mk
            ⟨true, false, false, true, true, true, false, true, true, true,
              true, true, true⟩
            [] [] 1 .InternalLinkage false))])).L.le
      (computeCachedProperties
        (CQual.mk Qualifiers.empty
          (.record (.mk
            ⟨true, false, false, true, true, true, false, true, true, true,
              true, true, true⟩
            [] [] 1 .InternalLinkage false))).ty).L :=
  ⟨linkage_pointer_function_merge_law.1 _,
    ((linkage_pointer_function_merge_law.2 _ _).2.1 _ (by simp))⟩


/-! ### Desugaring engine (C5)

The canonicalization/desugaring loops of Type.cpp operate on possibly
sugared type spellings.  `STy` embeds a representative set of sugared
and non-sugared node classes together with each sugar class's
`desugar()` step (from the per-class `desugar` implementations consumed
from `Type.h`: `ParenType` unwraps to its inner type, `TypedefType` to
the declaration's underlying type, `AttributedType` to its equivalent
type, `ElaboratedType` to its named type, `AdjustedType` to the adjusted
type, `DecltypeType` to its underlying type, and a deduced `AutoType` to
its deduced type). -/

mutual

/-- Possibly-sugared type nodes for the desugaring engine. -/
inductive STy where
  | builtin (k : BuiltinKind)
  | pointer (pointee : SQual)
  | recordRef (id : Nat)
  | paren (inner : SQual)
  | typedefRef (id : Nat) (underlying : SQual)
  | attributed (modified : SQual) (equivalent : SQual)
  | elaborated (named : SQual)
  | adjusted (original : SQual) (adjustedTy : SQual)
  | decltypeRef (underlying : SQual)
  | autoDeduced (deduced : SQual)

/-- A qualified, possibly-sugared type handle. -/
inductive SQual where
  | mk (quals : Qualifiers) (ty : STy)

end

/-- Qualifier component. -/
def SQual.quals : SQual → Qualifiers
  | .mk q _ => q

/-- Node component. -/
def SQual.ty : SQual → STy
  | .mk _ t => t

/-- `Type::isSugared` per node class: the sugar wrappers report `true`,
the canonical-shape classes report `false`. -/
def STy.isSugared : STy → Bool
  | .paren _ | .typedefRef _ _ | .attributed _ _ | .elaborated _
  | .adjusted _ _ | .decltypeRef _ | .autoDeduced _ => true
  | _ => false

/-- The single-step `desugar()` of each sugar class.  For a non-sugared
node the loops never call this; it returns the node itself unqualified
(`QualType(this, 0)`), matching the per-class trivial implementation. -/
def STy.desugar : STy → SQual
  | .paren inner => inner
  | .typedefRef _ u => u
  | .attributed _ equiv => equiv
  | .elaborated named => named
  | .adjusted _ adj => adj
  | .decltypeRef u => u
  | .autoDeduced d => d
  | t => .mk Qualifiers.empty t

theorem STy.sizeOf_desugar_lt (t : STy) (h : t.isSugared = true) :
    sizeOf t.desugar < sizeOf t := by
  cases t <;> simp_all [STy.isSugared, STy.desugar]
  all_goals simp_arith

theorem SQual.sizeOf_ty_lt (t : SQual) : sizeOf t.ty < sizeOf t := by
  obtain ⟨q, ty⟩ := t
  simp only [SQual.ty]
  simp_arith

/-- `Qualifiers::addConsistentQualifiers` (consumed from `Type.h`, per
spec §3/§4.2): the cv bits are unioned; on the GC, lifetime and
address-space axes the incoming value is taken when the accumulator's is
unset (the caller guarantees consistency, so the sets never conflict). -/
def Qualifiers.addConsistentQualifiers (a b : Qualifiers) : Qualifiers :=
  { cvr := Fin.ofNat (a.cvr.val ||| b.cvr.val)
    gc := match a.gc with
      | .GCNone => b.gc
      | g => g
    lifetime := match a.lifetime with
      | .OCL_None => b.lifetime
      | l => l
    addrSpace := if a.addrSpace = 0 then b.addrSpace else a.addrSpace }

theorem Qualifiers.empty_addConsistentQualifiers (q : Qualifiers) :
    Qualifiers.empty.addConsistentQualifiers q = q := by
  obtain ⟨cvr, gc, lt, as⟩ := q
  simp [Qualifiers.addConsistentQualifiers, Qualifiers.empty]
  exact Fin.ext (by simpa [Fin.ofNat] using Nat.mod_eq_of_lt cvr.isLt)

/-- `Type::getUnqualifiedDesugaredType` (Type.cpp:374-390): iterate the
single-step `desugar()` transition until the node reports itself
non-sugared. -/
def STy.getUnqualifiedDesugaredType (t : STy) : STy :=
  if h : t.isSugared then t.desugar.ty.getUnqualifiedDesugaredType
  else t
termination_by sizeOf t
decreasing_by
  exact Nat.lt_trans (SQual.sizeOf_ty_lt t.desugar) (STy.sizeOf_desugar_lt t h)

/-- The loop of `QualType::getSplitDesugaredType` (Type.cpp:271-290):
strip the current handle's qualifiers into the collector, stop when the
node is not sugared, otherwise follow its `desugar()` step. -/
def getSplitDesugaredLoop (Qs : Qualifiers) (cur : SQual) : STy × Qualifiers :=
  let Qs2 := Qs.addConsistentQualifiers cur.quals
  if h : cur.ty.isSugared then getSplitDesugaredLoop Qs2 cur.ty.desugar
  else (cur.ty, Qs2)
termination_by sizeOf cur
decreasing_by
  exact Nat.lt_trans (STy.sizeOf_desugar_lt cur.ty h) (SQual.sizeOf_ty_lt cur)

/-- `QualType::getSplitDesugaredType`: run the loop with an empty
qualifier collector. -/
def SQual.getSplitDesugaredType (T : SQual) : STy × Qualifiers :=
  getSplitDesugaredLoop Qualifiers.empty T

theorem getUnqualifiedDesugaredType_not_sugared (t : STy) :
    t.getUnqualifiedDesugaredType.isSugared = false := by
  by_cases h : t.isSugared = true
  · rw [show t.getUnqualifiedDesugaredType =
        t.desugar.ty.getUnqualifiedDesugaredType from by
      rw [STy.getUnqualifiedDesugaredType]
      simp [h]]
    exact getUnqualifiedDesugaredType_not_sugared t.desugar.ty
  · rw [STy.getUnqualifiedDesugaredType]
    simp [h]
termination_by sizeOf t
decreasing_by
  exact Nat.lt_trans (SQual.sizeOf_ty_lt t.desugar) (STy.sizeOf_desugar_lt t h)

theorem getUnqualifiedDesugaredType_of_not_sugared {t : STy}
    (h : t.isSugared = false) : t.getUnqualifiedDesugaredType = t := by
  rw [STy.getUnqualifiedDesugaredType]
  simp [h]

theorem getSplitDesugaredLoop_fst_not_sugared (Qs : Qualifiers)
    (cur : SQual) :
    (getSplitDesugaredLoop Qs cur).1.isSugared = false := by
  by_cases h : cur.ty.isSugared = true
  · rw [show getSplitDesugaredLoop Qs cur =
        getSplitDesugaredLoop (Qs.addConsistentQualifiers cur.quals)
          cur.ty.desugar from by
      rw [getSplitDesugaredLoop]
      simp [h]]
    exact getSplitDesugaredLoop_fst_not_sugared _ _
  · rw [getSplitDesugaredLoop]
    simp [h]
termination_by sizeOf cur
decreasing_by
  exact Nat.lt_trans (STy.sizeOf_desugar_lt cur.ty h) (SQual.sizeOf_ty_lt cur)

/-- C5: full desugaring is idempotent.  The result of
`getUnqualifiedDesugaredType` is a non-sugared node and a fixed point of
the transition, so applying the operation again returns it unchanged;
likewise the split variant returns a non-sugared node, and re-running
`getSplitDesugaredType` on the resulting (node, qualifiers) pair returns
that pair unchanged. -/
theorem full_desugar_idempotent :
    (∀ t : STy,
      t.getUnqualifiedDesugaredType.isSugared = false ∧
      t.getUnqualifiedDesugaredType.getUnqualifiedDesugaredType =
        t.getUnqualifiedDesugaredType) ∧
    (∀ T : SQual,
      (T.getSplitDesugaredType).1.isSugared = false ∧
      SQual.getSplitDesugaredType
          (.mk (T.getSplitDesugaredType).2 (T.getSplitDesugaredType).1) =
        T.getSplitDesugaredType) := by
  constructor
  · intro t
    refine ⟨getUnqualifiedDesugaredType_not_sugared t, ?_⟩
    exact getUnqualifiedDesugaredType_of_not_sugared
      (getUnqualifiedDesugaredType_not_sugared t)
  · intro T
    refine ⟨getSplitDesugaredLoop_fst_not_sugared _ _, ?_⟩
    have hns : (T.getSplitDesugaredType).1.isSugared = false :=
      getSplitDesugaredLoop_fst_not_sugared _ _
    rw [SQual.getSplitDesugaredType, getSplitDesugaredLoop]
    simp [SQual.ty, SQual.quals, Qualifiers.empty_addConsistentQualifiers,
      hns]

/-! ### Claims about individual predicates -/

/-- C6 counterexample: the dependent-sized array `int[N]` mentions an
unresolved generic parameter (`isDependentType` is true), yet
`isTrivialType` returns `true` on it: the array branch runs before the
dependence check and forwards the query to the non-dependent base
element `int`. -/
theorem trivial_type_dependent_counterexample :
    (CTy.depSizedArray (.builtin .intTy)).isDependentType = true ∧
    CQual.isTrivialType
      (.mk Qualifiers.empty (.depSizedArray (.builtin .intTy))) = true := by
  constructor
  · simp [CTy.isDependentType]
  · simp [CQual.isTrivialType, CTy.baseElementType, CTy.isIncompleteType,
      Qualifiers.hasNonTrivialObjCLifetime, Qualifiers.empty,
      CTy.isDependentType, CTy.isScalarType]

/-- C6 (amended): for every *non-array* type that mentions an unresolved
generic parameter, `isTrivialType` returns `false` (the function is
total, and the result is reached before any declaration-flag branch; for
an array type the query is instead forwarded to the array's base
element).  The statement quantifies over all declaration-flag values, so
the result does not depend on any declaration-level lookup. -/
theorem trivial_type_false_on_dependent_nonarray (q : Qualifiers) (ty : CTy)
    (hdep : ty.isDependentType = true) (harr : ty.isArrayType = false) :
    CQual.isTrivialType (.mk q ty) = false := by
  cases ty <;>
    simp_all [CTy.isArrayType, CQual.isTrivialType, CTy.isDependentType]

/-- Witness for amended C6 at a concrete input: an unresolved template
type parameter. -/
theorem trivial_type_false_on_dependent_nonarray_witness :
    CQual.isTrivialType (.mk Qualifiers.empty (.templateTypeParm 0)) =
      false :=
  trivial_type_false_on_dependent_nonarray Qualifiers.empty
    (.templateTypeParm 0) (by simp [CTy.isDependentType]) (by decide)

/-- C3: a struct or class type that is empty — no fields and no
non-empty base classes — has no unique object representations:
`structHasUniqueObjectRepresentations` returns `false` on the empty
struct before any layout computation (and if the declaration is not even
trivially copyable the query already fails at the trivial-copyability
gate). -/
theorem empty_struct_no_unique_representations (q : Qualifiers)
    (d : RecordDecl) (hunion : d.flags.isUnion = false)
    (hfields : d.fields = []) (hbases : allBasesEmpty d.bases = true) :
    CQual.hasUniqueObjectRepresentations (.mk q (.record d)) = false := by
  have hempty : isStructEmptyDecl d = true := by
    unfold isStructEmptyDecl
    obtain ⟨f, fs, bs, sz, l, u⟩ := d
    simp_all [RecordDecl.fields, RecordDecl.flags, RecordDecl.bases,
      RecordDecl.isEmptyModel]
  have hstruct : structHasUnique d = false := by
    obtain ⟨f, fs, bs, sz, l, u⟩ := d
    simp [structHasUnique, hempty]
  by_cases htc :
      CQual.isTriviallyCopyableType (.mk q (.record d)) = true
  · simp [CQual.hasUniqueObjectRepresentations, htc, hunion, hstruct,
      CTy.isFunctionType, CTy.isIntegralOrEnumerationType,
      CTy.isPointerType, CTy.isMemberPointerType]
  · simp [CQual.hasUniqueObjectRepresentations, htc]

/-- Witness for C3 at a concrete input: an empty C++ struct with no
fields and no bases. -/
theorem empty_struct_no_unique_representations_witness :
    CQual.hasUniqueObjectRepresentations
      (.mk Qualifiers.empty
        (.record (.mk
          ⟨true, false, false, true, true, true, false, true, true, true,
            true, true, true⟩
          [] [] 1 .ExternalLinkage false))) = false :=
  empty_struct_no_unique_representations Qualifiers.empty _
    (by decide) rfl (by simp [allBasesEmpty])

/-- C9: a class type whose declaration is a lambda closure type has no
unique object representations, regardless of the remaining flags and
layout: the record branch of `hasUniqueObjectRepresentations` rejects
lambdas before the union/struct walk (and a non-trivially-copyable
closure already fails at the trivial-copyability gate). -/
theorem lambda_record_no_unique_representations (q : Qualifiers)
    (d : RecordDecl) (hlam : d.flags.isLambda = true) :
    CQual.hasUniqueObjectRepresentations (.mk q (.record d)) = false := by
  by_cases htc :
      CQual.isTriviallyCopyableType (.mk q (.record d)) = true
  · simp [CQual.hasUniqueObjectRepresentations, htc, hlam,
      CTy.isFunctionType, CTy.isIntegralOrEnumerationType,
      CTy.isPointerType, CTy.isMemberPointerType]
  · simp [CQual.hasUniqueObjectRepresentations, htc]

/-- Witness for C9 at a concrete input: a trivially copyable lambda
closure type that would pass the struct padding checks. -/
theorem lambda_record_no_unique_representations_witness :
    CQual.hasUniqueObjectRepresentations
      (.mk Qualifiers.empty
        (.record (.mk
          ⟨true, false, true, true, true, true, false, true, true, true,
            true, true, true⟩
          [.mk (.mk Qualifiers.empty (.builtin .intTy)) 0 4] [] 4
          .ExternalLinkage false))) = false :=
  lambda_record_no_unique_representations Qualifiers.empty _ (by decide)

/-- C8: for a non-dependent type that is not a variable array and whose
base element's canonical form is a still-undeduced placeholder (auto)
type, `isLiteralType` returns `true`: the "not deduced yet" state is
reported as the conservative sentinel answer rather than an error. -/
theorem literal_type_of_undeduced_auto (lo : LangOpts) (ty : CTy)
    (hdep : ty.isDependentType = false)
    (hvla : ty.isVariableArrayType = false)
    (hbase : ty.baseElementType = .autoTy false) :
    ty.isLiteralType lo = true := by
  by_cases hvoid : (lo.cPlusPlus14 && ty.isVoidType) = true
  · simp [CTy.isLiteralType, hdep, hvla, hvoid]
  · simp [CTy.isLiteralType, hdep, hvla, hvoid, hbase, literalBaseCheck,
      CTy.isIncompleteType, CTy.isScalarType, CTy.isVectorType,
      CTy.isAnyComplexType, CTy.isReferenceType]

/-- Witness for C8 at a concrete input: the undeduced placeholder type
itself (as created for a non-template `auto` declaration before
deduction). -/
theorem literal_type_of_undeduced_auto_witness :
    CTy.isLiteralType ⟨false, false⟩ (.autoTy false) = true :=
  literal_type_of_undeduced_auto ⟨false, false⟩ (.autoTy false)
    (by simp [CTy.isDependentType]) (by decide) rfl

/-- C10: when the qualifiers carry no `__strong`/`__weak` lifetime and
the base element is a C++ record without a definition, the
destruction-kind classification is `DK_none`: destructor triviality is
only consulted behind the `hasDefinition` guard. -/
theorem destruction_kind_none_for_incomplete_record (q : Qualifiers)
    (ty : CTy) (d : RecordDecl)
    (hlt : q.hasNonTrivialObjCLifetime = false)
    (hbase : ty.baseElementType = .record d)
    (hdef : d.flags.hasDefinition = false) :
    CQual.isDestructedTypeImpl (.mk q ty) = .DK_none := by
  unfold CQual.isDestructedTypeImpl
  cases hq : q.lifetime <;>
    simp_all [Qualifiers.hasNonTrivialObjCLifetime, hbase, hdef]

/-- Witness for C10 at a concrete input: a forward-declared C++ class
with a (vacuously) non-trivial destructor flag. -/
theorem destruction_kind_none_for_incomplete_record_witness :
    CQual.isDestructedTypeImpl
      (.mk Qualifiers.empty
        (.record (.mk
          ⟨true, false, false, false, false, false, false, false, false,
            false, false, false, false⟩
          [] [] 0 .ExternalLinkage false))) = .DK_none :=
  destruction_kind_none_for_incomplete_record Qualifiers.empty _ _
    (by decide) rfl (by decide)

/-! ### Generic substitution engine (C4)

`QualType::substObjCTypeArgs` (Type.cpp:1110) is built on
`simpleTransform` (Type.cpp:1086): the caller-supplied transform is
applied at the root; if it changed the type (compared by opaque
pointer), its result is returned; otherwise the qualifiers are split
off, the `SimpleTransformVisitor` rebuilds the node from recursively
transformed children, returning `QualType(T, 0)` unchanged when no child
changed, and the local qualifiers are re-attached.  `OTy` embeds the
(possibly sugared) type grammar the visitor dispatches on; opaque
pointer identity is modelled by structural equality (`OQual.beq`), which
the interning collaborator guarantees to coincide with reference
identity. -/

/-- `ObjCSubstitutionContext`. -/
inductive SubstContext where
  | Ordinary
  | Result
  | Parameter
  | Property
  | Superclass
deriving DecidableEq, Repr

mutual

/-- Type nodes for the substitution engine: the trivially-transformed
leaf classes, the structurally rebuilt compound classes of
`SimpleTransformVisitor`, and the Objective-C classes the transform
itself handles.  `objcIdClass` stands for the ObjC builtin `id`/`Class`
object type; `dependentLeaf` stands for the dependent classes, which the
visitor leaves unchanged. -/
inductive OTy where
  | builtin (k : BuiltinKind)
  | dependentLeaf (id : Nat)
  | typedefRef (id : Nat)
  | recordRef (id : Nat)
  | enumRef (id : Nat)
  | objcInterface (id : Nat)
  | objcIdClass
  | complexTy (elem : OQual)
  | pointer (pointee : OQual)
  | blockPointer (pointee : OQual)
  | lvalueReference (pointee : OQual) (spelledAsLValue : Bool)
  | rvalueReference (pointee : OQual)
  | memberPointer (pointee : OQual) (cls : Nat)
  | constantArray (elem : OQual) (size : Nat)
  | variableArray (elem : OQual)
  | incompleteArray (elem : OQual)
  | vector (elem : OQual) (numElems : Nat)
  | paren (inner : OQual)
  | decayed (original : OQual)
  | adjusted (original : OQual) (adjustedTy : OQual)
  | attributed (modified : OQual) (equivalent : OQual) (attrKind : Nat)
  | autoTy (deduced : Option OQual) (keyword : Nat)
  | atomic (val : OQual)
  | functionNoProto (ret : OQual)
  | functionProto (ret : OQual) (params : List OQual)
      (espec : Option (List OQual))
  | objcTypeParamRef (index : Nat) (protocols : List Nat)
      (underlying : OQual)
  | objcObject (base : OQual) (typeArgs : List OQual)
      (protocols : List Nat) (isKindOf : Bool)
  | objcObjectPointer (pointee : OQual)

/-- A qualified type handle for the substitution engine. -/
inductive OQual where
  | mk (quals : Qualifiers) (ty : OTy)

end

/-- Qualifier component. -/
def OQual.quals : OQual → Qualifiers
  | .mk q _ => q

/-- Node component. -/
def OQual.ty : OQual → OTy
  | .mk _ t => t

mutual

/-- Structural equality of nodes, modelling opaque-pointer equality
(`getAsOpaquePtr` comparison) under the interning invariant. -/
def OTy.beq : OTy → OTy → Bool
  | .builtin k1, .builtin k2 => k1 == k2
  | .dependentLeaf i1, .dependentLeaf i2 => i1 == i2
  | .typedefRef i1, .typedefRef i2 => i1 == i2
  | .recordRef i1, .recordRef i2 => i1 == i2
  | .enumRef i1, .enumRef i2 => i1 == i2
  | .objcInterface i1, .objcInterface i2 => i1 == i2
  | .objcIdClass, .objcIdClass => true
  | .complexTy e1, .complexTy e2 => OQual.beq e1 e2
  | .pointer p1, .pointer p2 => OQual.beq p1 p2
  | .blockPointer p1, .blockPointer p2 => OQual.beq p1 p2
  | .lvalueReference p1 s1, .lvalueReference p2 s2 =>
    OQual.beq p1 p2 && s1 == s2
  | .rvalueReference p1, .rvalueReference p2 => OQual.beq p1 p2
  | .memberPointer p1 c1, .memberPointer p2 c2 =>
    OQual.beq p1 p2 && c1 == c2
  | .constantArray e1 n1, .constantArray e2 n2 =>
    OQual.beq e1 e2 && n1 == n2
  | .variableArray e1, .variableArray e2 => OQual.beq e1 e2
  | .incompleteArray e1, .incompleteArray e2 => OQual.beq e1 e2
  | .vector e1 n1, .vector e2 n2 => OQual.beq e1 e2 && n1 == n2
  | .paren i1, .paren i2 => OQual.beq i1 i2
  | .decayed o1, .decayed o2 => OQual.beq o1 o2
  | .adjusted o1 a1, .adjusted o2 a2 => OQual.beq o1 o2 && OQual.beq a1 a2
  | .attributed m1 e1 k1, .attributed m2 e2 k2 =>
    OQual.beq m1 m2 && OQual.beq e1 e2 && k1 == k2
  | .autoTy d1 k1, .autoTy d2 k2 => OQual.beqOpt d1 d2 && k1 == k2
  | .atomic v1, .atomic v2 => OQual.beq v1 v2
  | .functionNoProto r1, .functionNoProto r2 => OQual.beq r1 r2
  | .functionProto r1 p1 e1, .functionProto r2 p2 e2 =>
    OQual.beq r1 r2 && OQual.beqList p1 p2 && OQual.beqEspec e1 e2
  | .objcTypeParamRef i1 pr1 u1, .objcTypeParamRef i2 pr2 u2 =>
    i1 == i2 && pr1 == pr2 && OQual.beq u1 u2
  | .objcObject b1 t1 pr1 k1, .objcObject b2 t2 pr2 k2 =>
    OQual.beq b1 b2 && OQual.beqList t1 t2 && pr1 == pr2 && k1 == k2
  | .objcObjectPointer p1, .objcObjectPointer p2 => OQual.beq p1 p2
  | _, _ => false

/-- Structural equality of qualified handles. -/
def OQual.beq : OQual → OQual → Bool
  | .mk q1 t1, .mk q2 t2 => q1 == q2 && OTy.beq t1 t2

/-- Pointwise structural equality of lists. -/
def OQual.beqList : List OQual → List OQual → Bool
  | [], [] => true
  | x :: xs, y :: ys => OQual.beq x y && OQual.beqList xs ys
  | _, _ => false

/-- The optional deduced type of a placeholder, compared structurally. -/
def OQual.beqOpt : Option OQual → Option OQual → Bool
  | none, none => true
  | some x, some y => OQual.beq x y
  | _, _ => false

/-- Structural equality of optional exception-type lists. -/
def OQual.beqEspec : Option (List OQual) → Option (List OQual) → Bool
  | none, none => true
  | some xs, some ys => OQual.beqList xs ys
  | _, _ => false

end

/-- The interning/context operations consumed by the substitution engine
that are not structural rebuilds: `ASTContext::applyObjCProtocolQualifiers`,
applying a protocol list onto a substituted argument type. -/
structure OCtx where
  applyProtocols : OQual → List Nat → OQual

/-- `ASTContext::getQualifiedType(T, Qs)`: re-attach a qualifier set to a
type (the interning collaborator's qualifier attachment). -/
def getQualifiedType (t : OQual) (qs : Qualifiers) : OQual :=
  .mk (qs.addConsistentQualifiers t.quals) t.ty

/-- `ObjCObjectPointerType::isKindOfType() ||
Obj...isObjCIdOrClassType()` for the pointee of an object pointer: the
pointee object type carries `__kindof`, or is the builtin `id`/`Class`
object type. -/
def isKindOfOrIdClass : OQual → Bool
  | .mk _ (.objcObject _ _ _ kindof) => kindof
  | .mk _ .objcIdClass => true
  | _ => false

mutual

/-- `simpleTransform` (Type.cpp:1086) instantiated with the
`substObjCTypeArgs` transform (`substFn`): apply the transform at the
root; a null result propagates; a changed result is returned
immediately; otherwise the unqualified shape is visited and the local
qualifiers are re-attached to the visitor's result.  `none` models the
null `QualType` failure sentinel. -/
def substQT (C : OCtx) (args : List OQual) (sc : SubstContext) :
    OQual → Option OQual
  | .mk q ty =>
    match substFn C args sc (.mk q ty) with
    | none => none
    | some t' =>
      if OQual.beq t' (.mk q ty) then
        match visitTy C args sc ty with
        | none => none
        | some result => some (getQualifiedType result q)
      else some t'
termination_by t => (sizeOf t, 1)

/-- The transform lambda of `QualType::substObjCTypeArgs`
(Type.cpp:1115-1297).  An Objective-C type-parameter reference is
replaced by the indexed type argument (with the reference's protocol
list applied) when arguments are supplied, and otherwise by the
parameter's declared bound — in `Result`/`Property` contexts the
`__kindof` form of the bound.  Function types substitute the return type
in `Result` context, parameter types in `Parameter` context and dynamic
exception specifications in `Ordinary` context, rebuilding only on
change.  Specialized Objective-C object types substitute their written
type arguments, collapsing to the unspecialized form when a no-argument
substitution changes an argument outside a `Superclass` context.  Every
other type is returned unchanged. -/
def substFn (C : OCtx) (args : List OQual) (sc : SubstContext) :
    OQual → Option OQual
  | .mk q (.objcTypeParamRef idx protos underlying) =>
    if !args.isEmpty then
      match args.get? idx with
      | none => none
      | some argType =>
        if protos.isEmpty then some (getQualifiedType argType q)
        else some (getQualifiedType (C.applyProtocols argType protos) q)
    else
      match sc with
      | .Ordinary | .Parameter | .Superclass =>
        some (getQualifiedType underlying q)
      | .Result | .Property =>
        match underlying with
        | .mk uq (.objcObjectPointer op) =>
          if isKindOfOrIdClass op then
            some (getQualifiedType (.mk uq (.objcObjectPointer op)) q)
          else
            match op with
            | .mk _ (.objcObject base targsW protos2 _) =>
              some (getQualifiedType
                (.mk Qualifiers.empty
                  (.objcObjectPointer
                    (.mk Qualifiers.empty
                      (.objcObject base targsW protos2 true)))) q)
            | _ => none
        | _ => none
  | .mk q (.functionNoProto ret) =>
    match substQT C args .Result ret with
    | none => none
    | some ret' =>
      if OQual.beq ret' ret then some (.mk q (.functionNoProto ret))
      else some (.mk Qualifiers.empty (.functionNoProto ret'))
  | .mk q (.functionProto ret ps es) =>
    match substQT C args .Result ret with
    | none => none
    | some ret' =>
      match substList C args .Parameter ps with
      | none => none
      | some (ps', pchanged) =>
        match substESpec C args es with
        | none => none
        | some (es2, echanged) =>
          if OQual.beq ret' ret && !pchanged && !echanged then
            some (.mk q (.functionProto ret ps es))
          else
            some (.mk Qualifiers.empty
              (.functionProto ret' ps' (if echanged then es2 else es)))
  | .mk q (.objcObject base targs protos kindof) =>
    if targs.isEmpty then some (.mk q (.objcObject base targs protos kindof))
    else
      match substObjArgsLoop C args sc targs with
      | none => none
      | some (Sum.inl _) =>
        some (.mk Qualifiers.empty (.objcObject base [] protos kindof))
      | some (Sum.inr (newArgs, changed)) =>
        if changed then
          some (.mk Qualifiers.empty (.objcObject base newArgs protos kindof))
        else some (.mk q (.objcObject base targs protos kindof))
  | t => some t
termination_by t => (sizeOf t, 0)

/-- `SimpleTransformVisitor` (Type.cpp:700-1081): the trivial and
dependent classes are returned unchanged as `QualType(T, 0)`; each
compound class recursively transforms its structural children
(propagating the null sentinel) and reconstructs a new node only if a
child changed, returning `QualType(T, 0)` otherwise. -/
def visitTy (C : OCtx) (args : List OQual) (sc : SubstContext) :
    OTy → Option OQual
  | .builtin k => some (.mk Qualifiers.empty (.builtin k))
  | .dependentLeaf i => some (.mk Qualifiers.empty (.dependentLeaf i))
  | .typedefRef i => some (.mk Qualifiers.empty (.typedefRef i))
  | .recordRef i => some (.mk Qualifiers.empty (.recordRef i))
  | .enumRef i => some (.mk Qualifiers.empty (.enumRef i))
  | .objcInterface i => some (.mk Qualifiers.empty (.objcInterface i))
  | .objcIdClass => some (.mk Qualifiers.empty .objcIdClass)
  | .objcTypeParamRef i pr u =>
    some (.mk Qualifiers.empty (.objcTypeParamRef i pr u))
  | .complexTy e =>
    match substQT C args sc e with
    | none => none
    | some e' =>
      if OQual.beq e' e then some (.mk Qualifiers.empty (.complexTy e))
      else some (.mk Qualifiers.empty (.complexTy e'))
  | .pointer p =>
    match substQT C args sc p with
    | none => none
    | some p' =>
      if OQual.beq p' p then some (.mk Qualifiers.empty (.pointer p))
      else some (.mk Qualifiers.empty (.pointer p'))
  | .blockPointer p =>
    match substQT C args sc p with
    | none => none
    | some p' =>
      if OQual.beq p' p then some (.mk Qualifiers.empty (.blockPointer p))
      else some (.mk Qualifiers.empty (.blockPointer p'))
  | .lvalueReference p s =>
    match substQT C args sc p with
    | none => none
    | some p' =>
      if OQual.beq p' p then
        some (.mk Qualifiers.empty (.lvalueReference p s))
      else some (.mk Qualifiers.empty (.lvalueReference p' s))
  | .rvalueReference p =>
    match substQT C args sc p with
    | none => none
    | some p' =>
      if OQual.beq p' p then some (.mk Qualifiers.empty (.rvalueReference p))
      else some (.mk Qualifiers.empty (.rvalueReference p'))
  | .memberPointer p c =>
    match substQT C args sc p with
    | none => none
    | some p' =>
      if OQual.beq p' p then
        some (.mk Qualifiers.empty (.memberPointer p c))
      else some (.mk Qualifiers.empty (.memberPointer p' c))
  | .constantArray e n =>
    match substQT C args sc e with
    | none => none
    | some e' =>
      if OQual.beq e' e then
        some (.mk Qualifiers.empty (.constantArray e n))
      else some (.mk Qualifiers.empty (.constantArray e' n))
  | .variableArray e =>
    match substQT C args sc e with
    | none => none
    | some e' =>
      if OQual.beq e' e then some (.mk Qualifiers.empty (.variableArray e))
      else some (.mk Qualifiers.empty (.variableArray e'))
  | .incompleteArray e =>
    match substQT C args sc e with
    | none => none
    | some e' =>
      if OQual.beq e' e then
        some (.mk Qualifiers.empty (.incompleteArray e))
      else some (.mk Qualifiers.empty (.incompleteArray e'))
  | .vector e n =>
    match substQT C args sc e with
    | none => none
    | some e' =>
      if OQual.beq e' e then some (.mk Qualifiers.empty (.vector e n))
      else some (.mk Qualifiers.empty (.vector e' n))
  | .paren i =>
    match substQT C args sc i with
    | none => none
    | some i' =>
      if OQual.beq i' i then some (.mk Qualifiers.empty (.paren i))
      else some (.mk Qualifiers.empty (.paren i'))
  | .decayed o =>
    match substQT C args sc o with
    | none => none
    | some o' =>
      if OQual.beq o' o then some (.mk Qualifiers.empty (.decayed o))
      else some (.mk Qualifiers.empty (.decayed o'))
  | .adjusted o a =>
    match substQT C args sc o with
    | none => none
    | some o' =>
      match substQT C args sc a with
      | none => none
      | some a' =>
        if OQual.beq o' o && OQual.beq a' a then
          some (.mk Qualifiers.empty (.adjusted o a))
        else some (.mk Qualifiers.empty (.adjusted o' a'))
  | .attributed m e k =>
    match substQT C args sc m with
    | none => none
    | some m' =>
      match substQT C args sc e with
      | none => none
      | some e' =>
        if OQual.beq m' m && OQual.beq e' e then
          some (.mk Qualifiers.empty (.attributed m e k))
        else some (.mk Qualifiers.empty (.attributed m' e' k))
  | .autoTy none kw => some (.mk Qualifiers.empty (.autoTy none kw))
  | .autoTy (some d) kw =>
    match substQT C args sc d with
    | none => none
    | some d' =>
      if OQual.beq d' d then
        some (.mk Qualifiers.empty (.autoTy (some d) kw))
      else some (.mk Qualifiers.empty (.autoTy (some d') kw))
  | .atomic v =>
    match substQT C args sc v with
    | none => none
    | some v' =>
      if OQual.beq v' v then some (.mk Qualifiers.empty (.atomic v))
      else some (.mk Qualifiers.empty (.atomic v'))
  | .functionNoProto r =>
    match substQT C args sc r with
    | none => none
    | some r' =>
      if OQual.beq r' r then
        some (.mk Qualifiers.empty (.functionNoProto r))
      else some (.mk Qualifiers.empty (.functionNoProto r'))
  | .functionProto r ps es =>
    match substQT C args sc r with
    | none => none
    | some r' =>
      match substList C args sc ps with
      | none => none
      | some (ps', pchanged) =>
        match substESpecVisit C args sc es with
        | none => none
        | some (es2, echanged) =>
          if OQual.beq r' r && !pchanged && !echanged then
            some (.mk Qualifiers.empty (.functionProto r ps es))
          else
            some (.mk Qualifiers.empty
              (.functionProto r' ps' (if echanged then es2 else es)))
  | .objcObject base targs protos kindof =>
    match substQT C args sc base with
    | none => none
    | some base' =>
      match substList C args sc targs with
      | none => none
      | some (targs', ch) =>
        if OQual.beq base' base && !ch then
          some (.mk Qualifiers.empty (.objcObject base targs protos kindof))
        else
          some (.mk Qualifiers.empty (.objcObject base' targs' protos kindof))
  | .objcObjectPointer p =>
    match substQT C args sc p with
    | none => none
    | some p' =>
      if OQual.beq p' p then
        some (.mk Qualifiers.empty (.objcObjectPointer p))
      else some (.mk Qualifiers.empty (.objcObjectPointer p'))
termination_by ty => (sizeOf ty, 0)

/-- The parameter/type-argument loops: transform each element, propagate
the null sentinel, and record whether any element changed (compared by
opaque pointer). -/
def substList (C : OCtx) (args : List OQual) (sc : SubstContext) :
    List OQual → Option (List OQual × Bool)
  | [] => some ([], false)
  | p :: rest =>
    match substQT C args sc p with
    | none => none
    | some p' =>
      match substList C args sc rest with
      | none => none
      | some (l, ch) => some (p' :: l, ch || !OQual.beq p' p)
termination_by l => (sizeOf l, 0)

/-- The dynamic-exception-specification handling of the transform's
function case (Type.cpp:1217-1240): only an `EST_Dynamic` specification
(modelled as `some` list) has its exception types substituted, in
`Ordinary` context. -/
def substESpec (C : OCtx) (args : List OQual) :
    Option (List OQual) → Option (Option (List OQual) × Bool)
  | none => some (none, false)
  | some exs =>
    match substList C args .Ordinary exs with
    | none => none
    | some (exs', ch) => some (some exs', ch)
termination_by es => (sizeOf es, 1)

/-- The same handling inside `VisitFunctionProtoType`
(Type.cpp:888-909), which transforms exception types with the visitor's
captured context. -/
def substESpecVisit (C : OCtx) (args : List OQual) (sc : SubstContext) :
    Option (List OQual) → Option (Option (List OQual) × Bool)
  | none => some (none, false)
  | some exs =>
    match substList C args sc exs with
    | none => none
    | some (exs', ch) => some (some exs', ch)
termination_by es => (sizeOf es, 1)

/-- The type-argument loop of the transform's specialized-object case
(Type.cpp:1254-1281): each written argument is substituted in `Ordinary`
context; when an argument changes under a no-argument substitution
outside a `Superclass` context the loop aborts, requesting the
unspecialized form (`Sum.inl`); otherwise it accumulates the new
arguments and whether any changed. -/
def substObjArgsLoop (C : OCtx) (args : List OQual) (sc : SubstContext) :
    List OQual → Option (Sum Unit (List OQual × Bool))
  | [] => some (Sum.inr ([], false))
  | ta :: rest =>
    match substQT C args .Ordinary ta with
    | none => none
    | some ta' =>
      if OQual.beq ta' ta then
        match substObjArgsLoop C args sc rest with
        | none => none
        | some (Sum.inl u) => some (Sum.inl u)
        | some (Sum.inr (l, ch)) => some (Sum.inr (ta' :: l, ch))
      else
        if args.isEmpty && !(sc == SubstContext.Superclass) then
          some (Sum.inl ())
        else
          match substObjArgsLoop C args sc rest with
          | none => none
          | some (Sum.inl u) => some (Sum.inl u)
          | some (Sum.inr (l, _)) => some (Sum.inr (ta' :: l, true))
termination_by l => (sizeOf l, 0)

end

mutual

/-- The type contains a reference to an Objective-C generic type
parameter (an `ObjCTypeParamType` occurrence anywhere in its
structure). -/
def OTy.mentionsTypeParam : OTy → Bool
  | .objcTypeParamRef _ _ _ => true
  | .builtin _ => false
  | .dependentLeaf _ => false
  | .typedefRef _ => false
  | .recordRef _ => false
  | .enumRef _ => false
  | .objcInterface _ => false
  | .objcIdClass => false
  | .complexTy e => e.mentionsTypeParam
  | .pointer p => p.mentionsTypeParam
  | .blockPointer p => p.mentionsTypeParam
  | .lvalueReference p _ => p.mentionsTypeParam
  | .rvalueReference p => p.mentionsTypeParam
  | .memberPointer p _ => p.mentionsTypeParam
  | .constantArray e _ => e.mentionsTypeParam
  | .variableArray e => e.mentionsTypeParam
  | .incompleteArray e => e.mentionsTypeParam
  | .vector e _ => e.mentionsTypeParam
  | .paren i => i.mentionsTypeParam
  | .decayed o => o.mentionsTypeParam
  | .adjusted o a => o.mentionsTypeParam || a.mentionsTypeParam
  | .attributed m e _ => m.mentionsTypeParam || e.mentionsTypeParam
  | .autoTy none _ => false
  | .autoTy (some d) _ => d.mentionsTypeParam
  | .atomic v => v.mentionsTypeParam
  | .functionNoProto r => r.mentionsTypeParam
  | .functionProto r ps es =>
    r.mentionsTypeParam || OQual.mentionsList ps || OQual.mentionsEspec es
  | .objcObject b ts _ _ => b.mentionsTypeParam || OQual.mentionsList ts
  | .objcObjectPointer p => p.mentionsTypeParam

/-- Type-parameter occurrence under a qualified handle. -/
def OQual.mentionsTypeParam : OQual → Bool
  | .mk _ t => t.mentionsTypeParam

/-- Type-parameter occurrence in a list of types. -/
def OQual.mentionsList : List OQual → Bool
  | [] => false
  | p :: rest => p.mentionsTypeParam || OQual.mentionsList rest

/-- Type-parameter occurrence in an optional exception list. -/
def OQual.mentionsEspec : Option (List OQual) → Bool
  | none => false
  | some l => OQual.mentionsList l

end

set_option maxHeartbeats 2000000 in
mutual

theorem OTy.beq_self (t : OTy) : OTy.beq t t = true := by
  cases t
  case builtin k => simp [OTy.beq]
  case dependentLeaf i => simp [OTy.beq]
  case typedefRef i => simp [OTy.beq]
  case recordRef i => simp [OTy.beq]
  case enumRef i => simp [OTy.beq]
  case objcInterface i => simp [OTy.beq]
  case objcIdClass => simp [OTy.beq]
  case complexTy e =>
    have h := OQual.beq_refl e
    simp [OTy.beq, h]
  case pointer p =>
    have h := OQual.beq_refl p
    simp [OTy.beq, h]
  case blockPointer p =>
    have h := OQual.beq_refl p
    simp [OTy.beq, h]
  case lvalueReference p s =>
    have h := OQual.beq_refl p
    simp [OTy.beq, h]
  case rvalueReference p =>
    have h := OQual.beq_refl p
    simp [OTy.beq, h]
  case memberPointer p c =>
    have h := OQual.beq_refl p
    simp [OTy.beq, h]
  case constantArray e n =>
    have h := OQual.beq_refl e
    simp [OTy.beq, h]
  case variableArray e =>
    have h := OQual.beq_refl e
    simp [OTy.beq, h]
  case incompleteArray e =>
    have h := OQual.beq_refl e
    simp [OTy.beq, h]
  case vector e n =>
    have h := OQual.beq_refl e
    simp [OTy.beq, h]
  case paren i =>
    have h := OQual.beq_refl i
    simp [OTy.beq, h]
  case decayed o =>
    have h := OQual.beq_refl o
    simp [OTy.beq, h]
  case adjusted o a =>
    have h1 := OQual.beq_refl o
    have h2 := OQual.beq_refl a
    simp [OTy.beq, h1, h2]
  case attributed m e k =>
    have h1 := OQual.beq_refl m
    have h2 := OQual.beq_refl e
    simp [OTy.beq, h1, h2]
  case autoTy d kw =>
    have h := OQual.beqOpt_refl d
    simp [OTy.beq, h]
  case atomic v =>
    have h := OQual.beq_refl v
    simp [OTy.beq, h]
  case functionNoProto r =>
    have h := OQual.beq_refl r
    simp [OTy.beq, h]
  case functionProto r ps es =>
    have h1 := OQual.beq_refl r
    have h2 := OQual.beqList_refl ps
    have h3 := OQual.beqEspec_refl es
    simp [OTy.beq, h1, h2, h3]
  case objcTypeParamRef i pr u =>
    have h := OQual.beq_refl u
    simp [OTy.beq, h]
  case objcObject b ts pr k =>
    have h1 := OQual.beq_refl b
    have h2 := OQual.beqList_refl ts
    simp [OTy.beq, h1, h2]
  case objcObjectPointer p =>
    have h := OQual.beq_refl p
    simp [OTy.beq, h]

theorem OQual.beq_refl (t : OQual) : OQual.beq t t = true := by
  cases t
  case mk q ty =>
    have h := OTy.beq_self ty
    simp [OQual.beq, h]

theorem OQual.beqList_refl (l : List OQual) : OQual.beqList l l = true := by
  cases l
  case nil => simp [OQual.beqList]
  case cons x xs =>
    have h1 := OQual.beq_refl x
    have h2 := OQual.beqList_refl xs
    simp [OQual.beqList, h1, h2]

theorem OQual.beqEspec_refl (es : Option (List OQual)) :
    OQual.beqEspec es es = true := by
  cases es
  case none => simp [OQual.beqEspec]
  case some l =>
    have h := OQual.beqList_refl l
    simp [OQual.beqEspec, h]

theorem OQual.beqOpt_refl (d : Option OQual) : OQual.beqOpt d d = true := by
  cases d
  case none => simp [OQual.beqOpt]
  case some x =>
    have h := OQual.beq_refl x
    simp [OQual.beqOpt, h]

end

theorem Qualifiers.addConsistentQualifiers_empty_right (q : Qualifiers) :
    q.addConsistentQualifiers Qualifiers.empty = q := by
  obtain ⟨cvr, gc, lt, as⟩ := q
  simp [Qualifiers.addConsistentQualifiers, Qualifiers.empty]
  refine ⟨Fin.ext (by simpa [Fin.ofNat] using Nat.mod_eq_of_lt cvr.isLt),
    ?_, ?_, ?_⟩
  · cases gc <;> rfl
  · cases lt <;> rfl
  · by_cases h : as = 0 <;> simp [h]

theorem getQualifiedType_empty_quals (ty : OTy) (q : Qualifiers) :
    getQualifiedType (.mk Qualifiers.empty ty) q = .mk q ty := by
  simp [getQualifiedType, OQual.quals, OQual.ty,
    Qualifiers.addConsistentQualifiers_empty_right]

/-- Identity preservation of the substitution engine, proved for all the
mutually recursive entry points at once by strong induction on node size:
on inputs free of Objective-C type-parameter references, the transform,
the top-level rewrite, the visitor, and the list/exception-specification
loops all return their input unchanged (flagging no change). -/
theorem subst_identity_below (C : OCtx) (args : List OQual) (n : Nat) :
    (∀ (sc : SubstContext) (t : OQual), sizeOf t ≤ n →
        t.mentionsTypeParam = false →
        substFn C args sc t = some t ∧ substQT C args sc t = some t)
    ∧ (∀ (sc : SubstContext) (ty : OTy), sizeOf ty ≤ n →
        OTy.mentionsTypeParam ty = false →
        visitTy C args sc ty = some (.mk Qualifiers.empty ty))
    ∧ (∀ (sc : SubstContext) (l : List OQual), sizeOf l ≤ n →
        OQual.mentionsList l = false →
        substList C args sc l = some (l, false)
          ∧ substObjArgsLoop C args sc l = some (Sum.inr (l, false)))
    ∧ (∀ (sc : SubstContext) (es : Option (List OQual)), sizeOf es ≤ n →
        OQual.mentionsEspec es = false →
        substESpec C args es = some (es, false)
          ∧ substESpecVisit C args sc es = some (es, false)) := by
  induction n using Nat.strong_induction_on with
  | _ n IH =>
  refine ⟨?_, ?_, ?_, ?_⟩
  · -- substFn and substQT
    intro sc t hle hmen
    obtain ⟨q, ty⟩ := t
    have hty : OTy.mentionsTypeParam ty = false := by
      simpa [OQual.mentionsTypeParam] using hmen
    have hlt : sizeOf ty < n := by
      have h1 : sizeOf ty < sizeOf (OQual.mk q ty) := by simp_arith
      omega
    have hF : substFn C args sc (OQual.mk q ty) = some (OQual.mk q ty) := by
      cases ty
      case objcTypeParamRef i pr u =>
        simp [OTy.mentionsTypeParam] at hty
      case functionNoProto ret =>
        have hr : OQual.mentionsTypeParam ret = false := by
          simpa [OTy.mentionsTypeParam] using hty
        have hszr : sizeOf ret < n := by
          have h1 : sizeOf ret <
              sizeOf (OQual.mk q (OTy.functionNoProto ret)) := by simp_arith
          omega
        have hQ := ((IH (sizeOf ret) hszr).1 SubstContext.Result ret
          le_rfl hr).2
        simp [substFn, hQ, OQual.beq_refl]
      case functionProto ret ps es =>
        simp only [OTy.mentionsTypeParam, Bool.or_eq_false_iff] at hty
        obtain ⟨⟨h1, h2⟩, h3⟩ := hty
        have hs1 : sizeOf ret < n := by
          have hx : sizeOf ret <
              sizeOf (OQual.mk q (OTy.functionProto ret ps es)) := by
            simp_arith
          omega
        have hs2 : sizeOf ps < n := by
          have hx : sizeOf ps <
              sizeOf (OQual.mk q (OTy.functionProto ret ps es)) := by
            simp_arith
          omega
        have hs3 : sizeOf es < n := by
          have hx : sizeOf es <
              sizeOf (OQual.mk q (OTy.functionProto ret ps es)) := by
            simp_arith
          omega
        have hR := ((IH (sizeOf ret) hs1).1 SubstContext.Result ret
          le_rfl h1).2
        have hP := ((IH (sizeOf ps) hs2).2.2.1 SubstContext.Parameter ps
          le_rfl h2).1
        have hE := ((IH (sizeOf es) hs3).2.2.2 SubstContext.Ordinary es
          le_rfl h3).1
        simp [substFn, hR, hP, hE, OQual.beq_refl]
      case objcObject base targs protos kindof =>
        simp only [OTy.mentionsTypeParam, Bool.or_eq_false_iff] at hty
        obtain ⟨hb, hts⟩ := hty
        cases hemp : targs.isEmpty
        case true => simp [substFn, hemp]
        case false =>
          have hst : sizeOf targs < n := by
            have hx : sizeOf targs <
                sizeOf (OQual.mk q
                  (OTy.objcObject base targs protos kindof)) := by
              simp_arith
            omega
          have hloop := ((IH (sizeOf targs) hst).2.2.1 sc targs
            le_rfl hts).2
          simp [substFn, hemp, hloop]
      all_goals simp [substFn]
    have hV := (IH (sizeOf ty) hlt).2.1 sc ty le_rfl hty
    have hQ : substQT C args sc (OQual.mk q ty) = some (OQual.mk q ty) := by
      simp [substQT, hF, hV, OQual.beq_refl, getQualifiedType_empty_quals]
    exact ⟨hF, hQ⟩
  · -- visitTy
    intro sc ty hle hmen
    cases ty
    case builtin k => simp [visitTy]
    case dependentLeaf i => simp [visitTy]
    case typedefRef i => simp [visitTy]
    case recordRef i => simp [visitTy]
    case enumRef i => simp [visitTy]
    case objcInterface i => simp [visitTy]
    case objcIdClass => simp [visitTy]
    case objcTypeParamRef i pr u => simp [visitTy]
    case complexTy e =>
      have he : OQual.mentionsTypeParam e = false := by
        simpa [OTy.mentionsTypeParam] using hmen
      have hlt : sizeOf e < n := by
        have hx : sizeOf e < sizeOf (OTy.complexTy e) := by simp_arith
        omega
      have hQ := ((IH (sizeOf e) hlt).1 sc e le_rfl he).2
      simp [visitTy, hQ, OQual.beq_refl]
    case pointer p =>
      have hp : OQual.mentionsTypeParam p = false := by
        simpa [OTy.mentionsTypeParam] using hmen
      have hlt : sizeOf p < n := by
        have hx : sizeOf p < sizeOf (OTy.pointer p) := by simp_arith
        omega
      have hQ := ((IH (sizeOf p) hlt).1 sc p le_rfl hp).2
      simp [visitTy, hQ, OQual.beq_refl]
    case blockPointer p =>
      have hp : OQual.mentionsTypeParam p = false := by
        simpa [OTy.mentionsTypeParam] using hmen
      have hlt : sizeOf p < n := by
        have hx : sizeOf p < sizeOf (OTy.blockPointer p) := by simp_arith
        omega
      have hQ := ((IH (sizeOf p) hlt).1 sc p le_rfl hp).2
      simp [visitTy, hQ, OQual.beq_refl]
    case lvalueReference p s =>
      have hp : OQual.mentionsTypeParam p = false := by
        simpa [OTy.mentionsTypeParam] using hmen
      have hlt : sizeOf p < n := by
        have hx : sizeOf p < sizeOf (OTy.lvalueReference p s) := by
          simp_arith
        omega
      have hQ := ((IH (sizeOf p) hlt).1 sc p le_rfl hp).2
      simp [visitTy, hQ, OQual.beq_refl]
    case rvalueReference p =>
      have hp : OQual.mentionsTypeParam p = false := by
        simpa [OTy.mentionsTypeParam] using hmen
      have hlt : sizeOf p < n := by
        have hx : sizeOf p < sizeOf (OTy.rvalueReference p) := by simp_arith
        omega
      have hQ := ((IH (sizeOf p) hlt).1 sc p le_rfl hp).2
      simp [visitTy, hQ, OQual.beq_refl]
    case memberPointer p c =>
      have hp : OQual.mentionsTypeParam p = false := by
        simpa [OTy.mentionsTypeParam] using hmen
      have hlt : sizeOf p < n := by
        have hx : sizeOf p < sizeOf (OTy.memberPointer p c) := by simp_arith
        omega
      have hQ := ((IH (sizeOf p) hlt).1 sc p le_rfl hp).2
      simp [visitTy, hQ, OQual.beq_refl]
    case constantArray e m =>
      have he : OQual.mentionsTypeParam e = false := by
        simpa [OTy.mentionsTypeParam] using hmen
      have hlt : sizeOf e < n := by
        have hx : sizeOf e < sizeOf (OTy.constantArray e m) := by simp_arith
        omega
      have hQ := ((IH (sizeOf e) hlt).1 sc e le_rfl he).2
      simp [visitTy, hQ, OQual.beq_refl]
    case variableArray e =>
      have he : OQual.mentionsTypeParam e = false := by
        simpa [OTy.mentionsTypeParam] using hmen
      have hlt : sizeOf e < n := by
        have hx : sizeOf e < sizeOf (OTy.variableArray e) := by simp_arith
        omega
      have hQ := ((IH (sizeOf e) hlt).1 sc e le_rfl he).2
      simp [visitTy, hQ, OQual.beq_refl]
    case incompleteArray e =>
      have he : OQual.mentionsTypeParam e = false := by
        simpa [OTy.mentionsTypeParam] using hmen
      have hlt : sizeOf e < n := by
        have hx : sizeOf e < sizeOf (OTy.incompleteArray e) := by simp_arith
        omega
      have hQ := ((IH (sizeOf e) hlt).1 sc e le_rfl he).2
      simp [visitTy, hQ, OQual.beq_refl]
    case vector e m =>
      have he : OQual.mentionsTypeParam e = false := by
        simpa [OTy.mentionsTypeParam] using hmen
      have hlt : sizeOf e < n := by
        have hx : sizeOf e < sizeOf (OTy.vector e m) := by simp_arith
        omega
      have hQ := ((IH (sizeOf e) hlt).1 sc e le_rfl he).2
      simp [visitTy, hQ, OQual.beq_refl]
    case paren i =>
      have hi : OQual.mentionsTypeParam i = false := by
        simpa [OTy.mentionsTypeParam] using hmen
      have hlt : sizeOf i < n := by
        have hx : sizeOf i < sizeOf (OTy.paren i) := by simp_arith
        omega
      have hQ := ((IH (sizeOf i) hlt).1 sc i le_rfl hi).2
      simp [visitTy, hQ, OQual.beq_refl]
    case decayed o =>
      have ho : OQual.mentionsTypeParam o = false := by
        simpa [OTy.mentionsTypeParam] using hmen
      have hlt : sizeOf o < n := by
        have hx : sizeOf o < sizeOf (OTy.decayed o) := by simp_arith
        omega
      have hQ := ((IH (sizeOf o) hlt).1 sc o le_rfl ho).2
      simp [visitTy, hQ, OQual.beq_refl]
    case adjusted o a =>
      simp only [OTy.mentionsTypeParam, Bool.or_eq_false_iff] at hmen
      obtain ⟨h1, h2⟩ := hmen
      have hl1 : sizeOf o < n := by
        have hx : sizeOf o < sizeOf (OTy.adjusted o a) := by simp_arith
        omega
      have hl2 : sizeOf a < n := by
        have hx : sizeOf a < sizeOf (OTy.adjusted o a) := by simp_arith
        omega
      have hQ1 := ((IH (sizeOf o) hl1).1 sc o le_rfl h1).2
      have hQ2 := ((IH (sizeOf a) hl2).1 sc a le_rfl h2).2
      simp [visitTy, hQ1, hQ2, OQual.beq_refl]
    case attributed m e k =>
      simp only [OTy.mentionsTypeParam, Bool.or_eq_false_iff] at hmen
      obtain ⟨h1, h2⟩ := hmen
      have hl1 : sizeOf m < n := by
        have hx : sizeOf m < sizeOf (OTy.attributed m e k) := by simp_arith
        omega
      have hl2 : sizeOf e < n := by
        have hx : sizeOf e < sizeOf (OTy.attributed m e k) := by simp_arith
        omega
      have hQ1 := ((IH (sizeOf m) hl1).1 sc m le_rfl h1).2
      have hQ2 := ((IH (sizeOf e) hl2).1 sc e le_rfl h2).2
      simp [visitTy, hQ1, hQ2, OQual.beq_refl]
    case autoTy d kw =>
      cases d
      case none => simp [visitTy]
      case some dd =>
        have hd : OQual.mentionsTypeParam dd = false := by
          simpa [OTy.mentionsTypeParam] using hmen
        have hlt : sizeOf dd < n := by
          have hx : sizeOf dd < sizeOf (OTy.autoTy (some dd) kw) := by
            simp_arith
          omega
        have hQ := ((IH (sizeOf dd) hlt).1 sc dd le_rfl hd).2
        simp [visitTy, hQ, OQual.beq_refl]
    case atomic v =>
      have hv : OQual.mentionsTypeParam v = false := by
        simpa [OTy.mentionsTypeParam] using hmen
      have hlt : sizeOf v < n := by
        have hx : sizeOf v < sizeOf (OTy.atomic v) := by simp_arith
        omega
      have hQ := ((IH (sizeOf v) hlt).1 sc v le_rfl hv).2
      simp [visitTy, hQ, OQual.beq_refl]
    case functionNoProto r =>
      have hr : OQual.mentionsTypeParam r = false := by
        simpa [OTy.mentionsTypeParam] using hmen
      have hlt : sizeOf r < n := by
        have hx : sizeOf r < sizeOf (OTy.functionNoProto r) := by simp_arith
        omega
      have hQ := ((IH (sizeOf r) hlt).1 sc r le_rfl hr).2
      simp [visitTy, hQ, OQual.beq_refl]
    case functionProto r ps es =>
      simp only [OTy.mentionsTypeParam, Bool.or_eq_false_iff] at hmen
      obtain ⟨⟨h1, h2⟩, h3⟩ := hmen
      have hs1 : sizeOf r < n := by
        have hx : sizeOf r < sizeOf (OTy.functionProto r ps es) := by
          simp_arith
        omega
      have hs2 : sizeOf ps < n := by
        have hx : sizeOf ps < sizeOf (OTy.functionProto r ps es) := by
          simp_arith
        omega
      have hs3 : sizeOf es < n := by
        have hx : sizeOf es < sizeOf (OTy.functionProto r ps es) := by
          simp_arith
        omega
      have hR := ((IH (sizeOf r) hs1).1 sc r le_rfl h1).2
      have hP := ((IH (sizeOf ps) hs2).2.2.1 sc ps le_rfl h2).1
      have hE := ((IH (sizeOf es) hs3).2.2.2 sc es le_rfl h3).2
      simp [visitTy, hR, hP, hE, OQual.beq_refl]
    case objcObject b ts pr k =>
      simp only [OTy.mentionsTypeParam, Bool.or_eq_false_iff] at hmen
      obtain ⟨hb, hts⟩ := hmen
      have hs1 : sizeOf b < n := by
        have hx : sizeOf b < sizeOf (OTy.objcObject b ts pr k) := by
          simp_arith
        omega
      have hs2 : sizeOf ts < n := by
        have hx : sizeOf ts < sizeOf (OTy.objcObject b ts pr k) := by
          simp_arith
        omega
      have hB := ((IH (sizeOf b) hs1).1 sc b le_rfl hb).2
      have hT := ((IH (sizeOf ts) hs2).2.2.1 sc ts le_rfl hts).1
      simp [visitTy, hB, hT, OQual.beq_refl]
    case objcObjectPointer p =>
      have hp : OQual.mentionsTypeParam p = false := by
        simpa [OTy.mentionsTypeParam] using hmen
      have hlt : sizeOf p < n := by
        have hx : sizeOf p < sizeOf (OTy.objcObjectPointer p) := by
          simp_arith
        omega
      have hQ := ((IH (sizeOf p) hlt).1 sc p le_rfl hp).2
      simp [visitTy, hQ, OQual.beq_refl]
  · -- substList and substObjArgsLoop
    intro sc l hle hmen
    cases l
    case nil =>
      exact ⟨by simp [substList], by simp [substObjArgsLoop]⟩
    case cons p rest =>
      simp only [OQual.mentionsList, Bool.or_eq_false_iff] at hmen
      obtain ⟨h1, h2⟩ := hmen
      have hlp : sizeOf p < n := by
        have hx : sizeOf p < sizeOf (p :: rest) := by simp_arith
        omega
      have hlr : sizeOf rest < n := by
        have hx : sizeOf rest < sizeOf (p :: rest) := by simp_arith
        omega
      have hQ := ((IH (sizeOf p) hlp).1 sc p le_rfl h1).2
      have hQO := ((IH (sizeOf p) hlp).1 SubstContext.Ordinary p
        le_rfl h1).2
      have hrest := (IH (sizeOf rest) hlr).2.2.1 sc rest le_rfl h2
      refine ⟨?_, ?_⟩
      · simp [substList, hQ, hrest.1, OQual.beq_refl]
      · simp [substObjArgsLoop, hQO, hrest.2, OQual.beq_refl]
  · -- substESpec and substESpecVisit
    intro sc es hle hmen
    cases es
    case none =>
      exact ⟨by simp [substESpec], by simp [substESpecVisit]⟩
    case some l =>
      have hml : OQual.mentionsList l = false := by
        simpa [OQual.mentionsEspec] using hmen
      have hll : sizeOf l < n := by
        have hx : sizeOf l < sizeOf (some l : Option (List OQual)) := by
          simp_arith
        omega
      have hO := (IH (sizeOf l) hll).2.2.1 SubstContext.Ordinary l
        le_rfl hml
      have hS := (IH (sizeOf l) hll).2.2.1 sc l le_rfl hml
      exact ⟨by simp [substESpec, hO.1], by simp [substESpecVisit, hS.1]⟩

/-- C4: for every type (in any substitution context, with any argument
list and any protocol-application collaborator) that contains no
reference to an Objective-C generic type parameter, the
`substObjCTypeArgs` rewrite returns exactly the input type — the same
node, with no new node fabricated. -/
theorem substObjCTypeArgs_identity_on_param_free (C : OCtx)
    (args : List OQual) (sc : SubstContext) (t : OQual)
    (h : t.mentionsTypeParam = false) :
    substQT C args sc t = some t :=
  ((subst_identity_below C args (sizeOf t)).1 sc t le_rfl h).2

/-- Witness: the parameter-free type `int *` is returned unchanged by
the substitution rewrite. -/
theorem substObjCTypeArgs_identity_on_param_free_witness :
    OQual.mentionsTypeParam
        (OQual.mk Qualifiers.empty
          (OTy.pointer (OQual.mk Qualifiers.empty
            (OTy.builtin BuiltinKind.intTy)))) = false
      ∧ substQT ⟨fun t _ => t⟩ [] SubstContext.Ordinary
          (OQual.mk Qualifiers.empty
            (OTy.pointer (OQual.mk Qualifiers.empty
              (OTy.builtin BuiltinKind.intTy))))
        = some (OQual.mk Qualifiers.empty
            (OTy.pointer (OQual.mk Qualifiers.empty
              (OTy.builtin BuiltinKind.intTy)))) := by
  constructor
  · simp [OQual.mentionsTypeParam, OTy.mentionsTypeParam]
  · exact substObjCTypeArgs_identity_on_param_free ⟨fun t _ => t⟩ []
      SubstContext.Ordinary _
      (by simp [OQual.mentionsTypeParam, OTy.mentionsTypeParam])

end TypeCpp
